import Mathlib

set_option maxRecDepth 16000

deriving instance DecidableEq for Except

/-!
Shallow embedding of the prSHARK / reviewSHARK synchronization backends
(src/prSHARK/backends/github.py and src/reviewSHARK/backends/gerrit.py).

Modelling conventions:
* MongoDB collections are lists of records; each record carries a numeric
  `id` (the ObjectId) next to a `data` payload holding the document fields.
  Fresh ids are drawn per collection as the current list length.
* `Model.objects.get(...)` is the first record matching the filter
  (`List.find?`); `DoesNotExist` is the `none` branch.  `record.save()` on a
  fetched record replaces the first matching record in place
  (`replaceFirst`); on a new record it appends with a fresh id.
* Timestamps are `Nat` (dateutil parsing is the identity on these model
  timestamps); JSON string/number/bool fields keep their shape, and a field
  read with `.get(...)` (possibly absent) is an `Option`.
* HTTP traffic is an oracle `Nat → Response` indexed by the request number
  (or, for paginated listings, by the page number / start offset), and
  `time.sleep` calls are logged as a list of slept durations.
-/

/-- Model of `record.save()` on an already-persisted document: replace the
first element satisfying `p` (the natural-key filter) by `a`. -/
def replaceFirst (p : α → Bool) (a : α) : List α → List α
  | [] => []
  | x :: xs => if p x then a :: xs else x :: replaceFirst p a xs

/-- Model of python `needle in hay` substring containment. -/
def strContains (hay needle : String) : Bool :=
  (hay.splitOn needle).length > 1

/-- Raw Gerrit account object (`owner`, `submitter`, `author`, reviewer
entries): `_account_id` is required, the other fields may be absent. -/
structure RawPerson where
  account_id : Nat
  name : Option String
  username : Option String
  email : Option String
  deriving DecidableEq, Repr

/-- Model of the `People` document (pycoshark mongo model) as used by both
backends. -/
structure Person where
  id : Nat
  name : String
  username : String
  email : String
  deriving DecidableEq, Repr

/-- Model of the `Issue` document: looked up by `external_id` in
`_get_issue_id`. -/
structure IssueRec where
  id : Nat
  external_id : String
  deriving DecidableEq, Repr

/-- Model of the `CodeReviewRevision` document, restricted to the fields
read by `_get_revision_id` (lookup by `code_review_id` and
`revision_number`). -/
structure RevisionRec where
  id : Nat
  code_review_id : Nat
  revision_number : Nat
  deriving DecidableEq, Repr

/-- The collections and per-run caches read or written by the Gerrit
resolvers (`_store_people`, `_get_people_id`, `_get_issue_id`,
`_get_revision_id`).  The three caches mirror the class-level dicts
`people_id_cache`, `issue_id_cache` and `revision_id_cache` (the latter
keyed here by the flattened pair (code_review_id, revision_number)). -/
structure ResState where
  people : List Person
  issues : List IssueRec
  revisions : List RevisionRec
  peopleCache : List (Nat × Nat)
  issueCache : List (String × Nat)
  revisionCache : List ((Nat × Nat) × Nat)
  deriving DecidableEq, Repr

/-- Model of `raw_people.get("name", "no_name.gerrit.reviewSHARK")`. -/
def synthName (rp : RawPerson) : String :=
  rp.name.getD "no_name.gerrit.reviewSHARK"

/-- Fallback username synthesized from the display name
(gerrit.py:349). -/
def synthUsername (rp : RawPerson) : String :=
  rp.username.getD (synthName rp ++ "@no_username.gerrit.reviewSHARK")

/-- Fallback email synthesized from the username (gerrit.py:350). -/
def synthEmail (rp : RawPerson) : String :=
  rp.email.getD (synthUsername rp ++ "@no_email.gerrit.reviewSHARK")

/-- Model of `People.objects.get(email=email, name=name)` for the
synthesized fields of `rp`. -/
def findByEmailName (people : List Person) (rp : RawPerson) : Option Person :=
  people.find? (fun p => p.email == synthEmail rp && p.name == synthName rp)

/-- Model of `People.objects.get(username=username, name=name)` for the
synthesized fields of `rp`. -/
def findByUsernameName (people : List Person) (rp : RawPerson) : Option Person :=
  people.find? (fun p => p.username == synthUsername rp && p.name == synthName rp)

/-- Model of `Gerrit._store_people`: synthesize missing fields, look up by
(email, name), then by (username, name), create only if both fail. -/
def storePeople (res : ResState) (rp : RawPerson) : Nat × ResState :=
  match findByEmailName res.people rp with
  | some p => (p.id, res)
  | none =>
    match findByUsernameName res.people rp with
    | some p => (p.id, res)
    | none =>
      let p : Person :=
        { id := res.people.length, name := synthName rp,
          username := synthUsername rp, email := synthEmail rp }
      (p.id, { res with people := res.people ++ [p] })

/-- Model of `Gerrit._get_people_id`: `None` for a falsy argument, else the
`_account_id`-keyed cache, falling back to `_store_people`. -/
def getPeopleId (res : ResState) (rpq : Option RawPerson) : Option Nat × ResState :=
  match rpq with
  | none => (none, res)
  | some rp =>
    match res.peopleCache.lookup rp.account_id with
    | some pid => (some pid, res)
    | none =>
      let t := storePeople res rp
      (some t.1, { t.2 with peopleCache := t.2.peopleCache ++ [(rp.account_id, t.1)] })

/-- Model of `Gerrit._get_revision_id`: cached lookup of a
`CodeReviewRevision` by (code_review_id, revision_number); `none` models
the uncaught `DoesNotExist` (the python sets the cache slot twice, first
to the record and then to its id - the net effect is the id). -/
def getRevisionId (res : ResState) (cid rnum : Nat) : Option (Nat × ResState) :=
  match res.revisionCache.lookup (cid, rnum) with
  | some rid => some (rid, res)
  | none =>
    match res.revisions.find? (fun rv => rv.code_review_id == cid && rv.revision_number == rnum) with
    | some rv =>
      some (rv.id, { res with revisionCache := res.revisionCache ++ [((cid, rnum), rv.id)] })
    | none => none

/-- Configuration and platform collaborators for the Gerrit connector.
`extract` stands for the candidate-id extraction of `_get_issue_id`
(topic last path segment plus the two regex scans over the description,
deduplicated in encounter order); no claim below depends on its output,
so it is kept as a parameter of the model. -/
structure GerritCtx where
  link : Bool
  extract : Option String → Option String → List String
  reviewSystemId : Nat

/-- One step of the issue-candidate loop in `_get_issue_id`: consult the
issue cache, else `Issue.objects.get(external_id=...)`, silently dropping
unmatched candidates.  The accumulator models the python `issue_ids` set
as an insertion-ordered deduplicated list. -/
def issueStep (res : ResState) (acc : List Nat) (cand : String) : List Nat × ResState :=
  match res.issueCache.lookup cand with
  | some iid => (if acc.contains iid then acc else acc ++ [iid], res)
  | none =>
    match res.issues.find? (fun iss => iss.external_id == cand) with
    | some iss =>
      ((if acc.contains iss.id then acc else acc ++ [iss.id]),
       { res with issueCache := res.issueCache ++ [(cand, iss.id)] })
    | none => (acc, res)

/-- Candidate loop of `_get_issue_id`. -/
def issueLoop (res : ResState) (acc : List Nat) : List String → List Nat × ResState
  | [] => (acc, res)
  | cand :: rest =>
    let t := issueStep res acc cand
    issueLoop t.2 t.1 rest

/-- Model of `Gerrit._get_issue_id`: `None` when issue linking is disabled,
else the ids of the candidates that exist in the issue store. -/
def getIssueId (ctx : GerritCtx) (res : ResState) (topic description : Option String) :
    Option (List Nat) × ResState :=
  if ctx.link then
    let t := issueLoop res [] (ctx.extract topic description)
    (some t.1, t.2)
  else (none, res)

/-- Raw revision value inside `raw_review["revisions"]`, restricted to the
field read by `_get_description_from_revisions`. -/
structure RawRevInfo where
  commit_with_footers : Option String
  deriving DecidableEq, Repr

/-- Raw Gerrit change as consumed by `store_review` (the ordered
`revisions` dict modelled as an association list). -/
structure RawReview where
  id : String
  number : Nat
  revisions : List (String × RawRevInfo)
  subject : String
  hashtags : Option (List String)
  change_id : String
  topic : Option String
  owner : RawPerson
  submitter : Option RawPerson
  status : String
  has_review_started : Bool
  created : Nat
  updated : Nat
  submitted : Option Nat
  mergeable : Option Bool
  current_revision : String
  deriving DecidableEq, Repr

/-- Fields of the `CodeReview` document written by `store_review` (the
ObjectId is kept separately in `Review`). -/
structure ReviewData where
  code_review_system_ids : List Nat
  external_id : String
  external_number : Nat
  revisions : List Nat
  title : String
  description : Option String
  labels : Option (List String)
  change_id : String
  topic : Option String
  linked_issue_ids : Option (List Nat)
  author_id : Option Nat
  submitter_id : Option Nat
  status : String
  review_started : Bool
  created_at : Nat
  updated_at : Nat
  submitted_at : Option Nat
  mergable : Option Bool
  current_revision_commit_hash : String
  deriving DecidableEq, Repr

/-- Persisted `CodeReview` record. -/
structure Review where
  id : Nat
  data : ReviewData
  deriving DecidableEq, Repr

/-- Raw change-log message as consumed by `store_change_logs`. -/
structure RawChangeLog where
  id : String
  revision_number : Nat
  author : Option RawPerson
  message : String
  date : Nat
  accounts_in_message : List Nat
  deriving DecidableEq, Repr

/-- Fields of the `CodeReviewChangeLog` document written by
`store_change_logs`. -/
structure ChangeLogData where
  code_review_id : Nat
  external_id : String
  revision_id : Nat
  author_id : Option Nat
  message : String
  created_at : Nat
  mpre : List Nat
  deriving DecidableEq, Repr

/-- Persisted `CodeReviewChangeLog` record. -/
structure ChangeLog where
  id : Nat
  data : ChangeLogData
  deriving DecidableEq, Repr

/-- Raw Gerrit inline comment as consumed by `store_comments`. -/
structure RawGComment where
  id : String
  patch_set : Nat
  author : RawPerson
  message : String
  in_reply_to : Option String
  updated : Nat
  commit_id : String
  line : Option Nat
  change_message_id : Option String
  unresolved : Option Bool
  deriving DecidableEq, Repr

/-- Fields of the `CodeReviewComment` document written by
`store_comments`.  Note that `in_reply_to_id` receives the raw remote
marker string (`raw_comment.get("in_reply_to")`) unchanged. -/
structure GCommentData where
  code_review_id : Nat
  external_id : String
  patch_set_number : Nat
  revision_id : Nat
  author_id : Option Nat
  message : String
  in_reply_to_id : Option String
  updated_at : Nat
  file_path : String
  commit_id : String
  line : Option Nat
  more_change_message_id : Option String
  more_unresolved : Option Bool
  deriving DecidableEq, Repr

/-- Persisted `CodeReviewComment` record. -/
structure GComment where
  id : Nat
  data : GCommentData
  deriving DecidableEq, Repr

/-- The persistent store touched by the Gerrit reconcilers, together with
the resolver state. -/
structure GDB where
  reviews : List Review
  changeLogs : List ChangeLog
  comments : List GComment
  res : ResState
  deriving DecidableEq, Repr

/-- State at the start of a fresh sync run: the class-level caches start
empty, the persistent collections are whatever the previous run left
behind. -/
def freshCaches (db : GDB) : GDB :=
  { db with res := { db.res with peopleCache := [], issueCache := [], revisionCache := [] } }

/-- Model of `Gerrit._get_description_from_revisions`:
`commit_with_footers` of the last revision value, `None` when there are
no revisions. -/
def descriptionFromRevisions (raw : RawReview) : Option String :=
  match (raw.revisions.map (fun kv => kv.2)).getLast? with
  | some rv => rv.commit_with_footers
  | none => none

/-- Field computation of `store_review` (everything except the natural-key
find and the save), threading the resolver state in source order: linked
issues, then owner, then submitter. -/
def reviewDataOf (ctx : GerritCtx) (res : ResState) (raw : RawReview) : ReviewData × ResState :=
  let description := descriptionFromRevisions raw
  let tl := getIssueId ctx res raw.topic description
  let ta := getPeopleId tl.2 (some raw.owner)
  let ts := getPeopleId ta.2 raw.submitter
  ({ code_review_system_ids := [ctx.reviewSystemId],
     external_id := raw.id,
     external_number := raw.number,
     revisions := [],
     title := raw.subject,
     description := description,
     labels := raw.hashtags,
     change_id := raw.change_id,
     topic := raw.topic,
     linked_issue_ids := tl.1,
     author_id := ta.1,
     submitter_id := ts.1,
     status := raw.status,
     review_started := raw.has_review_started,
     created_at := raw.created,
     updated_at := raw.updated,
     submitted_at := raw.submitted,
     mergable := raw.mergeable,
     current_revision_commit_hash := raw.current_revision }, ts.2)

/-- Model of `Gerrit.store_review`: find by `external_id`; on a miss
construct a new `CodeReview`; set every field from the raw payload;
save. -/
def storeReview (ctx : GerritCtx) (db : GDB) (raw : RawReview) : Review × GDB :=
  let found := db.reviews.find? (fun r => r.data.external_id == raw.id)
  let t := reviewDataOf ctx db.res raw
  match found with
  | some r =>
    let rec2 : Review := { id := r.id, data := t.1 }
    (rec2, { db with reviews := replaceFirst (fun q => q.data.external_id == raw.id) rec2 db.reviews,
                     res := t.2 })
  | none =>
    let rec2 : Review := { id := db.reviews.length, data := t.1 }
    (rec2, { db with reviews := db.reviews ++ [rec2], res := t.2 })

/-- Model of `CodeReviewChangeLog.objects.insert(save_list)`: fresh
ObjectIds for a batch insert. -/
def assignLogIds (start : Nat) : List ChangeLogData → List ChangeLog
  | [] => []
  | d :: ds => { id := start, data := d } :: assignLogIds (start + 1) ds

/-- Loop of `Gerrit.store_change_logs`: an already-stored entry is only
collected (its fields are left untouched); a new entry is built - the
revision lookup may raise `DoesNotExist` (`Except.error`) - and queued;
the queue is batch-inserted at the end. -/
def storeChangeLogsGo (cid : Nat) :
    GDB → List ChangeLog → List ChangeLogData → List RawChangeLog →
    Except String (List ChangeLog × GDB)
  | db, collected, saveList, [] =>
    let newRecs := assignLogIds db.changeLogs.length saveList
    Except.ok (collected ++ newRecs, { db with changeLogs := db.changeLogs ++ newRecs })
  | db, collected, saveList, raw :: rest =>
    match db.changeLogs.find? (fun cl => cl.data.external_id == raw.id) with
    | some cl => storeChangeLogsGo cid db (collected ++ [cl]) saveList rest
    | none =>
      match getRevisionId db.res cid raw.revision_number with
      | none => Except.error "CodeReviewRevision matching query does not exist."
      | some tr =>
        let ta := getPeopleId tr.2 raw.author
        let d : ChangeLogData :=
          { code_review_id := cid, external_id := raw.id, revision_id := tr.1,
            author_id := ta.1, message := raw.message, created_at := raw.date,
            mpre := raw.accounts_in_message }
        storeChangeLogsGo cid { db with res := ta.2 } collected (saveList ++ [d]) rest

/-- Model of `Gerrit.store_change_logs`. -/
def storeChangeLogs (db : GDB) (cid : Nat) (raws : List RawChangeLog) :
    Except String (List ChangeLog × GDB) :=
  storeChangeLogsGo cid db [] [] raws

/-- Field computation for one raw comment in `store_comments` (source
order: revision, then author). -/
def gCommentDataOf (cid : Nat) (res : ResState) (filePath : String) (raw : RawGComment) :
    Option (GCommentData × ResState) :=
  match getRevisionId res cid raw.patch_set with
  | none => none
  | some tr =>
    let ta := getPeopleId tr.2 (some raw.author)
    some ({ code_review_id := cid, external_id := raw.id,
            patch_set_number := raw.patch_set, revision_id := tr.1,
            author_id := ta.1, message := raw.message,
            in_reply_to_id := raw.in_reply_to, updated_at := raw.updated,
            file_path := filePath, commit_id := raw.commit_id, line := raw.line,
            more_change_message_id := raw.change_message_id,
            more_unresolved := raw.unresolved }, ta.2)

/-- Model of `CodeReviewComment.objects.insert(insert_list)`: fresh
ObjectIds for a batch insert. -/
def assignCommentIds (start : Nat) : List GCommentData → List GComment
  | [] => []
  | d :: ds => { id := start, data := d } :: assignCommentIds (start + 1) ds

/-- Loop of `Gerrit.store_comments` over the flattened (file_path, comment)
pairs: existing comments are saved individually in place, new ones are
queued and batch-inserted at the end. -/
def storeCommentsGo (cid : Nat) :
    GDB → List GComment → List GCommentData → List (String × RawGComment) →
    Except String (List GComment × GDB)
  | db, collected, insertList, [] =>
    let newRecs := assignCommentIds db.comments.length insertList
    Except.ok (collected ++ newRecs, { db with comments := db.comments ++ newRecs })
  | db, collected, insertList, (filePath, raw) :: rest =>
    let found := db.comments.find? (fun c => c.data.external_id == raw.id)
    match gCommentDataOf cid db.res filePath raw with
    | none => Except.error "CodeReviewRevision matching query does not exist."
    | some td =>
      match found with
      | some c =>
        let rec2 : GComment := { id := c.id, data := td.1 }
        storeCommentsGo cid
          { db with comments := replaceFirst (fun q => q.data.external_id == raw.id) rec2 db.comments,
                    res := td.2 }
          (collected ++ [rec2]) insertList rest
      | none =>
        storeCommentsGo cid { db with res := td.2 } collected (insertList ++ [td.1]) rest

/-- Model of `Gerrit.store_comments` (the nested per-file loop flattened in
order). -/
def storeComments (db : GDB) (cid : Nat) (rawObj : List (String × List RawGComment)) :
    Except String (List GComment × GDB) :=
  storeCommentsGo cid db [] [] (rawObj.flatMap (fun fc => fc.2.map (fun c => (fc.1, c))))

/-- An HTTP response for the Gerrit connector: status code and (for status
200) the JSON payload parsed from the last content line. -/
structure GerritHttpResp (β : Type) where
  status : Nat
  body : β
  deriving DecidableEq, Repr

/-- Result of `Gerrit._make_request`: after three failed tries the python
returns the literal empty object, modelled by the `emptyObj` constructor;
no exception is ever raised. -/
inductive GerritPayload (β : Type) where
  | emptyObj : GerritPayload β
  | data : β → GerritPayload β
  deriving DecidableEq, Repr

/-- Retry loop of `Gerrit._make_request`, recursing on the remaining try
budget; each failed attempt logs a 2-second sleep. -/
def gerritMakeRequestGo (responses : Nat → GerritHttpResp β) :
    Nat → Nat → List Nat → GerritPayload β × List Nat
  | 0, _, sleeps => (GerritPayload.emptyObj, sleeps)
  | budget + 1, reqIdx, sleeps =>
    let resp := responses reqIdx
    if resp.status ≠ 200 then
      gerritMakeRequestGo responses budget (reqIdx + 1) (sleeps ++ [2])
    else (GerritPayload.data resp.body, sleeps)

/-- Model of `Gerrit._make_request` over a response oracle indexed by
attempt. -/
def gerritMakeRequest (responses : Nat → GerritHttpResp β) : GerritPayload β × List Nat :=
  gerritMakeRequestGo responses 3 0 []

/-- Stored review as read by the watermark computation in
`Gerrit.get_reviews`. -/
structure StoredReviewStub where
  code_review_system_ids : List Nat
  updated_at : Nat
  deriving DecidableEq, Repr

/-- Model of `CodeReview.objects.filter(code_review_system_ids=...)
.order_by("updated_at").first()`: the first stored review with minimal
`updated_at` among those of the given review system. -/
def oldestReviewFor (reviews : List StoredReviewStub) (sysId : Nat) : Option StoredReviewStub :=
  (reviews.filter (fun r => r.code_review_system_ids.contains sysId)).foldl
    (fun acc r =>
      match acc with
      | none => some r
      | some m => if r.updated_at < m.updated_at then some r else some m)
    none

/-- Rendering of `updated_at.strftime` on a model timestamp. -/
def dateStr (d : Nat) : String := toString d

/-- Query parameters sent by one thread-listing request of
`Gerrit.get_reviews`. -/
structure GerritQuery where
  start : Nat
  n : Nat
  q : String
  deriving DecidableEq, Repr

/-- The `params` dict built by `Gerrit.get_reviews` for a listing page:
`start` is the number of reviews yielded so far, the page size is 50, and
the query is `repo:<name>` plus, when a stored review exists, a
`before:<oldest updated_at>` bound. -/
def reviewsQuery (projectName : String) (reviews : List StoredReviewStub) (sysId start : Nat) :
    GerritQuery :=
  { start := start, n := 50,
    q := "repo:" ++ projectName ++
      (match oldestReviewFor reviews sysId with
       | some r => " before:" ++ dateStr r.updated_at
       | none => "") }

/-- One element of a Gerrit `/changes/` listing page: its id and the
`_more_changes` continuation flag (absent models `false`). -/
structure RawListItem where
  id : String
  more : Bool
  deriving DecidableEq, Repr

/-- Pagination loop of `Gerrit.get_reviews` over a page oracle indexed by
the `start` offset: accumulate the yielded reviews, then read
`data[-1].get("_more_changes", False)` - on an empty page the `[-1]`
subscript raises `IndexError` (`Except.error`).  The fuel bounds the
while loop and is never exhausted in the theorems below. -/
def getReviewsGo (fetch : Nat → List RawListItem) :
    Nat → Nat → List RawListItem → Except String (List RawListItem)
  | 0, _, _ => Except.error "out of fuel"
  | fuel + 1, yielded, acc =>
    let data := fetch yielded
    let acc2 := acc ++ data
    let yielded2 := yielded + data.length
    match data.getLast? with
    | none => Except.error "IndexError: list index out of range"
    | some last =>
      if last.more then getReviewsGo fetch fuel yielded2 acc2
      else Except.ok acc2

/-- The full sequence of reviews yielded by `Gerrit.get_reviews`. -/
def getReviews (fetch : Nat → List RawListItem) (fuel : Nat) :
    Except String (List RawListItem) :=
  getReviewsGo fetch fuel 0 []

/-- An HTTP response for the GitHub connector: status, the two rate-limit
headers (`X-RateLimit-Remaining` absent is `none`, `X-RateLimit-Reset` in
epoch seconds) and the JSON body. -/
structure GhResp (β : Type) where
  status : Nat
  remaining : Option Nat
  reset : Int
  body : β
  deriving DecidableEq, Repr

/-- Retry loop of `Github._send_request`, recursing on the remaining try
budget over a response oracle indexed by request number.  Each failed
attempt logs a 2-second sleep; after the third failure a
`requests.RequestException` is raised (`Except.error`).  On success, if
fewer than 2 rate-limit units remain, the fetcher sleeps
`(reset_time - now) + 10` seconds and re-issues the same request once,
returning the body of that second response.  The result also carries the
slept durations and the number of HTTP requests issued. -/
def sendRequestGo (responses : Nat → GhResp β) (now : Int) :
    Nat → Nat → List Int → Except String β × List Int × Nat
  | 0, reqIdx, sleeps => (Except.error "Problem with getting data via url.", sleeps, reqIdx)
  | budget + 1, reqIdx, sleeps =>
    let resp := responses reqIdx
    if resp.status ≠ 200 then
      sendRequestGo responses now budget (reqIdx + 1) (sleeps ++ [2])
    else
      match resp.remaining with
      | some r =>
        if r ≤ 1 then
          let waitingTime := (resp.reset - now) + 10
          let resp2 := responses (reqIdx + 1)
          (Except.ok resp2.body, sleeps ++ [waitingTime], reqIdx + 2)
        else (Except.ok resp.body, sleeps, reqIdx + 1)
      | none => (Except.ok resp.body, sleeps, reqIdx + 1)

/-- Model of `Github._send_request` over a response oracle. -/
def sendRequest (responses : Nat → GhResp β) (now : Int) :
    Except String β × List Int × Nat :=
  sendRequestGo responses now 3 0 []

/-- Loop of `Github._fetch_all_pages` (`while len(dat) > 0`), over a page
oracle indexed by page number, recursing on fuel (never exhausted in the
theorems below).  Returns the python locals on loop exit: the value the
source returns (`dat`, the final page), the accumulated `ret`, and the
last page number requested. -/
def fetchAllPagesGo (fetch : Nat → List α) :
    Nat → Nat → List α → List α → List α × List α × Nat
  | 0, page, ret, dat => (dat, ret, page)
  | fuel + 1, page, ret, dat =>
    if dat.length > 0 then
      let page2 := page + 1
      let dat2 := fetch page2
      fetchAllPagesGo fetch fuel page2 (ret ++ dat2) dat2
    else (dat, ret, page)

/-- Model of `Github._fetch_all_pages`: fetch page 1; if it holds fewer
than 100 records return it; otherwise loop until an empty page and - the
source slip - return `dat` (the final page) instead of the accumulated
`ret`.  First component: the returned value; second: the accumulated
`ret`; third: the last page number requested. -/
def fetchAllPages (fetch : Nat → List α) (fuel : Nat) : List α × List α × Nat :=
  let page := 1
  let dat := fetch page
  let ret := dat
  if ret.length < 100 then (ret, ret, page)
  else fetchAllPagesGo fetch fuel page ret dat

/-- Raw GitHub user object fetched from a user url: `login` is required,
`name` and `email` can be JSON null. -/
structure RawUser where
  login : String
  name : Option String
  email : Option String
  deriving DecidableEq, Repr

/-- Model of the `VCSSystem` document as read by
`Github._get_commit_id`. -/
structure VcsSystem where
  id : Nat
  project_id : Nat
  url : String
  deriving DecidableEq, Repr

/-- Model of the `Commit` document as read by `Github._get_commit_id`. -/
structure CommitRec where
  id : Nat
  vcs_system_id : Nat
  revision_hash : String
  deriving DecidableEq, Repr

/-- The skip condition of `Github._get_commit_id`:
`if repo_url and repo_url not in vcs.url: continue`. -/
def skipVcs (repoUrl : Option String) (vcs : VcsSystem) : Bool :=
  match repoUrl with
  | some u => !(strContains vcs.url u)
  | none => false

/-- Model of `Github._get_commit_id`: scan the project VCS systems
(skipping those whose url does not contain `repo_url` when one is given)
and return the id of the commit with the given revision hash; a missing
commit is a caught `DoesNotExist` (`pass`), so the function is total and
yields `none` when nothing matches. -/
def getCommitId (vcss : List VcsSystem) (commits : List CommitRec)
    (projectId : Nat) (revisionHash : String) (repoUrl : Option String) : Option Nat :=
  (vcss.filter (fun v => v.project_id == projectId)).foldl
    (fun commitId vcs =>
      if skipVcs repoUrl vcs then commitId
      else
        match commits.find? (fun c => c.vcs_system_id == vcs.id && c.revision_hash == revisionHash) with
        | some c => some c.id
        | none => commitId)
    none

/-- External collaborators of the GitHub connector: the pull-request
system id, the project id, the VCS and commit stores used by
`_get_commit_id`, and the user-url fetch oracle used by `_get_person`. -/
structure GHCtx where
  prsId : Nat
  projectId : Nat
  vcsSystems : List VcsSystem
  commits : List CommitRec
  users : String → RawUser

/-- Fields of the `PullRequest` document written by `Github.parse_pr_list`
(lines 200-250). -/
structure PRData where
  pull_request_system_id : Nat
  external_id : String
  title : String
  description : String
  state : String
  is_locked : Bool
  lock_reason : Option String
  is_draft : Bool
  created_at : Nat
  updated_at : Nat
  merge_commit_id : Option Nat
  closed_at : Option Nat
  merged_at : Option Nat
  assignee_id : Option Nat
  creator_id : Option Nat
  author_association : String
  source_repo_url : String
  source_branch : String
  source_commit_sha : String
  source_commit_id : Option Nat
  target_repo_url : String
  target_branch : String
  target_commit_sha : String
  target_commit_id : Option Nat
  linked_user_ids : List Nat
  requested_reviewer_ids : List Nat
  labels : List String
  deriving DecidableEq, Repr

/-- Persisted `PullRequest` record. -/
structure PR where
  id : Nat
  data : PRData
  deriving DecidableEq, Repr

/-- Fields of the `PullRequestReviewComment` document.  A placeholder
created for a forward `in_reply_to_id` reference carries only the natural
key (`pull_request_review_id`, `external_id`); every other field is
unset. -/
structure PRRCData where
  pull_request_review_id : Nat
  external_id : String
  diff_hunk : Option String
  path : Option String
  position : Option Nat
  original_position : Option Nat
  comment : Option String
  creator_id : Option Nat
  created_at : Option Nat
  updated_at : Option Nat
  author_association : Option String
  commit_sha : Option String
  original_commit_sha : Option String
  start_line : Option Nat
  original_start_line : Option Nat
  start_side : Option String
  line : Option Nat
  original_line : Option Nat
  side : Option String
  in_reply_to_id : Option Nat
  deriving DecidableEq, Repr

/-- Persisted `PullRequestReviewComment` record. -/
structure PRRC where
  id : Nat
  data : PRRCData
  deriving DecidableEq, Repr

/-- The persistent store touched by the modelled parts of
`Github.parse_pr_list`, plus the people cache (`self._people`, keyed by
user url). -/
structure GHState where
  people : List Person
  peopleCache : List (String × Nat)
  prs : List PR
  reviewComments : List PRRC
  deriving DecidableEq, Repr

/-- Model of `Github._get_person`: the user-url cache, else fetch the raw
user, fall back name to login and a missing email to the string "null",
and `People.objects(name=..., email=...).upsert_one(...)` - a single
find-or-create keyed by (name, email) whose update also overwrites the
matched document username with the login. -/
def getPerson (ctx : GHCtx) (s : GHState) (userUrl : String) : Nat × GHState :=
  match s.peopleCache.lookup userUrl with
  | some pid => (pid, s)
  | none =>
    let ru := ctx.users userUrl
    let name := ru.name.getD ru.login
    let email := ru.email.getD "null"
    match s.people.find? (fun p => p.name == name && p.email == email) with
    | some p =>
      let p2 : Person := { p with name := name, email := email, username := ru.login }
      (p.id, { s with people := replaceFirst (fun q => q.name == name && q.email == email) p2 s.people,
                      peopleCache := s.peopleCache ++ [(userUrl, p.id)] })
    | none =>
      let p : Person := { id := s.people.length, name := name, username := ru.login, email := email }
      (p.id, { s with people := s.people ++ [p],
                      peopleCache := s.peopleCache ++ [(userUrl, p.id)] })

/-- Sequential `_get_person` resolution of a list of user urls (the
`assignees` and `requested_reviewers` loops). -/
def getPersons (ctx : GHCtx) (s : GHState) : List String → List Nat × GHState
  | [] => ([], s)
  | u :: us =>
    let t := getPerson ctx s u
    let ts := getPersons ctx t.2 us
    (t.1 :: ts.1, ts.2)

/-- Raw actor reference inside a pull-request payload (only the `url` is
read, via `_get_person`). -/
structure RawActor where
  url : String
  deriving DecidableEq, Repr

/-- Raw `head` or `base` object of a pull-request payload. -/
structure RawBranchRef where
  repo_full_name : String
  ref : String
  sha : String
  deriving DecidableEq, Repr

/-- Raw GitHub pull request as consumed by the PullRequest-record part of
`Github.parse_pr_list` (lines 200-250). -/
structure RawPr where
  number : Nat
  title : String
  body : String
  state : String
  locked : Bool
  active_lock_reason : Option String
  draft : Bool
  created_at : Nat
  updated_at : Nat
  merge_commit_sha : String
  closed_at : Option Nat
  merged_at : Option Nat
  assignee : Option RawActor
  user : RawActor
  author_association : String
  head : RawBranchRef
  base : RawBranchRef
  assignees : List RawActor
  requested_reviewers : List RawActor
  labels : List String
  deriving DecidableEq, Repr

/-- Unsaved `PullRequest(pull_request_system_id=..., external_id=...)`:
every other field at its mongoengine default. -/
def emptyPRData (prsId : Nat) (ext : String) : PRData :=
  { pull_request_system_id := prsId, external_id := ext, title := "",
    description := "", state := "", is_locked := false, lock_reason := none,
    is_draft := false, created_at := 0, updated_at := 0,
    merge_commit_id := none, closed_at := none, merged_at := none,
    assignee_id := none, creator_id := none, author_association := "",
    source_repo_url := "", source_branch := "", source_commit_sha := "",
    source_commit_id := none, target_repo_url := "", target_branch := "",
    target_commit_sha := "", target_commit_id := none,
    linked_user_ids := [], requested_reviewer_ids := [], labels := [] }

/-- The PullRequest-record part of `Github.parse_pr_list` (lines 200-250):
find the record by (pull_request_system_id, external_id) or construct a
new one, overwrite the scalar fields from the raw payload - `closed_at`,
`merged_at` and `assignee_id` only when present - and APPEND to the
`linked_user_ids`, `requested_reviewer_ids` and `labels` lists, then
save. -/
def storePr (ctx : GHCtx) (s : GHState) (pr : RawPr) : PR × GHState :=
  let keyp : PR → Bool :=
    fun q => q.data.pull_request_system_id == ctx.prsId && q.data.external_id == toString pr.number
  let found := s.prs.find? keyp
  let d0 := match found with
    | some q => q.data
    | none => emptyPRData ctx.prsId (toString pr.number)
  let prId := match found with
    | some q => q.id
    | none => s.prs.length
  let mergeCommit := getCommitId ctx.vcsSystems ctx.commits ctx.projectId pr.merge_commit_sha none
  let tAssignee : Option Nat × GHState :=
    match pr.assignee with
    | some a =>
      let t := getPerson ctx s a.url
      (some t.1, t.2)
    | none => (d0.assignee_id, s)
  let tCreator := getPerson ctx tAssignee.2 pr.user.url
  let srcCommit := getCommitId ctx.vcsSystems ctx.commits ctx.projectId pr.head.sha (some pr.head.repo_full_name)
  let tgtCommit := getCommitId ctx.vcsSystems ctx.commits ctx.projectId pr.base.sha (some pr.base.repo_full_name)
  let tLinked := getPersons ctx tCreator.2 (pr.assignees.map (fun a => a.url))
  let tReq := getPersons ctx tLinked.2 (pr.requested_reviewers.map (fun a => a.url))
  let d : PRData :=
    { d0 with
      title := pr.title, description := pr.body, state := pr.state,
      is_locked := pr.locked, lock_reason := pr.active_lock_reason,
      is_draft := pr.draft, created_at := pr.created_at,
      updated_at := pr.updated_at, merge_commit_id := mergeCommit,
      closed_at := match pr.closed_at with
        | some t => some t
        | none => d0.closed_at,
      merged_at := match pr.merged_at with
        | some t => some t
        | none => d0.merged_at,
      assignee_id := tAssignee.1,
      creator_id := some tCreator.1,
      author_association := pr.author_association,
      source_repo_url := "https://github.com/" ++ pr.head.repo_full_name,
      source_branch := pr.head.ref, source_commit_sha := pr.head.sha,
      source_commit_id := srcCommit,
      target_repo_url := "https://github.com/" ++ pr.base.repo_full_name,
      target_branch := pr.base.ref, target_commit_sha := pr.base.sha,
      target_commit_id := tgtCommit,
      linked_user_ids := d0.linked_user_ids ++ tLinked.1,
      requested_reviewer_ids := d0.requested_reviewer_ids ++ tReq.1,
      labels := d0.labels ++ pr.labels }
  let rec2 : PR := { id := prId, data := d }
  match found with
  | some _ => (rec2, { tReq.2 with prs := replaceFirst keyp rec2 tReq.2.prs })
  | none => (rec2, { tReq.2 with prs := tReq.2.prs ++ [rec2] })

/-- Raw pull-request review comment as consumed by the inner loop of
`Github.parse_pr_list` (lines 268-302). -/
structure RawPRRC where
  id : String
  diff_hunk : String
  path : String
  position : Option Nat
  original_position : Option Nat
  body : String
  user_url : String
  created_at : Nat
  updated_at : Nat
  author_association : String
  commit_id : String
  original_commit_id : String
  start_line : Option Nat
  original_start_line : Option Nat
  start_side : Option String
  line : Option Nat
  original_line : Option Nat
  side : Option String
  in_reply_to_id : Option String
  deriving DecidableEq, Repr

/-- Payload of `PullRequestReviewComment(pull_request_review_id=...,
external_id=...)` saved empty as a forward-reference placeholder. -/
def placeholderPRRCData (prrId : Nat) (ext : String) : PRRCData :=
  { pull_request_review_id := prrId, external_id := ext, diff_hunk := none,
    path := none, position := none, original_position := none,
    comment := none, creator_id := none, created_at := none,
    updated_at := none, author_association := none, commit_sha := none,
    original_commit_sha := none, start_line := none,
    original_start_line := none, start_side := none, line := none,
    original_line := none, side := none, in_reply_to_id := none }

/-- The field map the review-comment loop assigns (lines 274-301 of
github.py), given the resolved creator id and the resolved
`in_reply_to_id` reference. -/
def ghPrrcDataOf (prrId creatorId : Nat) (replyRef : Option Nat) (raw : RawPRRC) : PRRCData :=
  { pull_request_review_id := prrId, external_id := raw.id,
    diff_hunk := some raw.diff_hunk, path := some raw.path,
    position := raw.position, original_position := raw.original_position,
    comment := some raw.body, creator_id := some creatorId,
    created_at := some raw.created_at, updated_at := some raw.updated_at,
    author_association := some raw.author_association,
    commit_sha := some raw.commit_id,
    original_commit_sha := some raw.original_commit_id,
    start_line := raw.start_line,
    original_start_line := raw.original_start_line,
    start_side := raw.start_side, line := raw.line,
    original_line := raw.original_line, side := raw.side,
    in_reply_to_id := replyRef }

/-- One iteration of the review-comment loop of `Github.parse_pr_list`
(lines 268-302): find by (pull_request_review_id, external_id) or
construct a new record; set the fields; when an `in_reply_to_id` marker
is present, find the target by the same natural key and, on a miss,
create and immediately save an empty placeholder so a stable id exists;
store that id in `in_reply_to_id`; save the comment. -/
def storeGhReviewComment (ctx : GHCtx) (s : GHState) (prrId : Nat) (raw : RawPRRC) : GHState :=
  let keyOf : String → PRRC → Bool :=
    fun ext c => c.data.pull_request_review_id == prrId && c.data.external_id == ext
  let found := s.reviewComments.find? (keyOf raw.id)
  let tCreator := getPerson ctx s raw.user_url
  let s1 := tCreator.2
  let tReply : Option Nat × GHState :=
    match raw.in_reply_to_id with
    | none => (none, s1)
    | some ext =>
      match s1.reviewComments.find? (keyOf ext) with
      | some tgt => (some tgt.id, s1)
      | none =>
        let ph : PRRC := { id := s1.reviewComments.length, data := placeholderPRRCData prrId ext }
        (some ph.id, { s1 with reviewComments := s1.reviewComments ++ [ph] })
  let s2 := tReply.2
  let d : PRRCData := ghPrrcDataOf prrId tCreator.1 tReply.1 raw
  match found with
  | some c =>
    { s2 with reviewComments := replaceFirst (keyOf raw.id) ({ id := c.id, data := d } : PRRC) s2.reviewComments }
  | none =>
    { s2 with reviewComments := s2.reviewComments ++ [({ id := s2.reviewComments.length, data := d } : PRRC)] }

/-- The review-comment loop over one fetched batch. -/
def storeGhReviewComments (ctx : GHCtx) (s : GHState) (prrId : Nat) :
    List RawPRRC → GHState
  | [] => s
  | raw :: rest => storeGhReviewComments ctx (storeGhReviewComment ctx s prrId raw) prrId rest

/-- Response oracle for the C9 witness: the first response is rate
limited, the re-issued request returns the fresh payload. -/
def c9Oracle : Nat → GhResp String :=
  fun i =>
    if i = 0 then { status := 200, remaining := some 1, reset := 100, body := "stale" }
    else { status := 200, remaining := none, reset := 0, body := "fresh" }

/-- Stub fetcher for C5: pages of exactly 100, 100 and 37 records, then
empty pages. -/
def c5Fetch : Nat → List Nat :=
  fun page =>
    if page = 1 then List.replicate 100 1
    else if page = 2 then List.replicate 100 2
    else if page = 3 then List.replicate 37 3
    else []

/-- Stub page oracle for the Gerrit side of C8: the first batch signals
`_more_changes`, the next page is empty. -/
def c8GerritFetch : Nat → List RawListItem :=
  fun start => if start = 0 then [{ id := "r1", more := true }] else []

/-- Stub page oracle for the GitHub side of C8: a full first page, then an
empty final page. -/
def c8GhFetch : Nat → List Nat :=
  fun page => if page = 1 then List.replicate 100 1 else []

/-- User-url oracle for C4: two distinct users. -/
def c4Users : String → RawUser :=
  fun url =>
    if url = "ux" then { login := "x", name := some "X", email := some "x@e" }
    else { login := "y", name := some "Y", email := some "y@e" }

/-- Collaborator context for C4. -/
def c4Ctx : GHCtx :=
  { prsId := 9, projectId := 0, vcsSystems := [], commits := [], users := c4Users }

/-- An empty GitHub-side store. -/
def ghEmpty : GHState :=
  { people := [], peopleCache := [], prs := [], reviewComments := [] }

/-- Raw pull request number 1 with a given requested-reviewer list. -/
def c4RawPr (reviewers : List RawActor) : RawPr :=
  { number := 1, title := "t", body := "b", state := "open", locked := false,
    active_lock_reason := none, draft := false, created_at := 1,
    updated_at := 2, merge_commit_sha := "m", closed_at := none,
    merged_at := none, assignee := none, user := { url := "ux" },
    author_association := "NONE",
    head := { repo_full_name := "o/r", ref := "b1", sha := "h1" },
    base := { repo_full_name := "o/r", ref := "main", sha := "h2" },
    assignees := [], requested_reviewers := reviewers, labels := [] }

/-- Everywhere-failing oracle for the Gerrit side of C7. -/
def c7GerritFail : Nat → GerritHttpResp String :=
  fun _ => { status := 500, body := "" }

/-- Everywhere-failing oracle for the GitHub side of the C7 witness. -/
def c7GhFail : Nat → GhResp String :=
  fun _ => { status := 500, remaining := none, reset := 0, body := "" }

/-- Everywhere-failing Gerrit oracle for the C7 witness. -/
def c7GerritFailB : Nat → GerritHttpResp Nat :=
  fun _ => { status := 404, body := 0 }

/-- Stored reviews for the C6 counterexample: two reviews of system 1,
updated at times 5 and 10. -/
def c6Store : List StoredReviewStub :=
  [{ code_review_system_ids := [1], updated_at := 5 },
   { code_review_system_ids := [1], updated_at := 10 }]

/-- The watermark the spec describes, stated from the spec words for
comparison with the code: the MOST RECENT `updated_at` among the stored
reviews of the source. -/
def specMostRecentUpdated (reviews : List StoredReviewStub) (sysId : Nat) : Option Nat :=
  ((reviews.filter (fun r => r.code_review_system_ids.contains sysId)).map
    (fun r => r.updated_at)).max?

/-- Store for the C3 counterexample: one person already known under
username U and name N, but with a different email address. -/
def c3S0 : GHState :=
  { people := [{ id := 0, name := "N", username := "U", email := "old@x" }],
    peopleCache := [], prs := [], reviewComments := [] }

/-- User oracle for the C3 counterexample: the raw user has no email. -/
def c3Users : String → RawUser :=
  fun _ => { login := "U", name := some "N", email := none }

/-- Collaborator context for the C3 counterexample. -/
def c3Ctx : GHCtx :=
  { prsId := 0, projectId := 0, vcsSystems := [], commits := [], users := c3Users }

/-- First of two raw Gerrit actors sharing all profile fields but with
different account ids, for the C3 witness. -/
def c3P1 : RawPerson :=
  { account_id := 1, name := some "N", username := some "U", email := some "E" }

/-- Second actor for the C3 witness. -/
def c3P2 : RawPerson :=
  { account_id := 2, name := some "N", username := some "U", email := some "E" }

/-- Empty Gerrit resolver state. -/
def resEmpty : ResState :=
  { people := [], issues := [], revisions := [], peopleCache := [],
    issueCache := [], revisionCache := [] }

/-- Gerrit store for the C2 counterexample: revision 1 of review 7 exists,
no comments yet. -/
def c2GDB : GDB :=
  { reviews := [], changeLogs := [], comments := [],
    res := { people := [], issues := [],
             revisions := [{ id := 0, code_review_id := 7, revision_number := 1 }],
             peopleCache := [], issueCache := [], revisionCache := [] } }

/-- A Gerrit reply comment whose `in_reply_to` target "A" has not been
seen, for the C2 counterexample. -/
def c2RawB : RawGComment :=
  { id := "B", patch_set := 1,
    author := { account_id := 3, name := some "N", username := some "U", email := some "E" },
    message := "reply", in_reply_to := some "A", updated := 5, commit_id := "c",
    line := some 2, change_message_id := none, unresolved := none }

/-- Collaborator context for the C2 witness. -/
def c2WCtx : GHCtx :=
  { prsId := 0, projectId := 0, vcsSystems := [], commits := [],
    users := fun _ => { login := "u", name := some "U1", email := some "e" } }

/-- Comment A for the C2 witness. -/
def c2A : RawPRRC :=
  { id := "A", diff_hunk := "dh", path := "f.py", position := some 1,
    original_position := some 1, body := "first", user_url := "uu",
    created_at := 1, updated_at := 2, author_association := "NONE",
    commit_id := "c1", original_commit_id := "c0", start_line := none,
    original_start_line := none, start_side := none, line := some 3,
    original_line := none, side := some "RIGHT", in_reply_to_id := none }

/-- Reply B (processed before A) for the C2 witness. -/
def c2B : RawPRRC :=
  { id := "B", diff_hunk := "dh2", path := "f.py", position := some 2,
    original_position := some 2, body := "reply", user_url := "uu",
    created_at := 3, updated_at := 4, author_association := "NONE",
    commit_id := "c1", original_commit_id := "c0", start_line := none,
    original_start_line := none, start_side := none, line := some 3,
    original_line := none, side := some "RIGHT", in_reply_to_id := some "A" }

/-- The raw account objects resolved by a `store_review` +
`store_change_logs` pipeline pass: the owner, the submitter when present,
and the change-log authors. -/
def reviewRawPeople (raw : RawReview) (rawLogs : List RawChangeLog) : List RawPerson :=
  raw.owner :: (raw.submitter.toList ++ rawLogs.filterMap (fun l => l.author))

/-- The already-stored change-log payload for the C1 counterexample. -/
def c1StoredLog : ChangeLogData :=
  { code_review_id := 7, external_id := "e", revision_id := 0,
    author_id := none, message := "old", created_at := 1, mpre := [] }

/-- Store for the C1 counterexample: a change log with external id "e" and
message "old" is already persisted. -/
def c1CDB : GDB :=
  { reviews := [], comments := [],
    changeLogs := [{ id := 0, data := c1StoredLog }],
    res := { people := [], issues := [],
             revisions := [{ id := 0, code_review_id := 7, revision_number := 1 }],
             peopleCache := [], issueCache := [], revisionCache := [] } }

/-- Latest raw payload for the already-stored change log "e", now with
message "new". -/
def c1RawLog : RawChangeLog :=
  { id := "e", revision_number := 1, author := none, message := "new",
    date := 2, accounts_in_message := [] }

/-- Gerrit context for the C1 witness: issue linking disabled. -/
def c1WCtx : GerritCtx :=
  { link := false, extract := fun _ _ => [], reviewSystemId := 1 }

/-- Owner account for the C1 witness. -/
def c1WOwner : RawPerson :=
  { account_id := 1, name := some "N", username := some "U", email := some "E" }

/-- Store for the C1 witness: the owner person record already exists. -/
def c1WDB : GDB :=
  { reviews := [], changeLogs := [], comments := [],
    res := { people := [{ id := 0, name := "N", username := "U", email := "E" }],
             issues := [], revisions := [], peopleCache := [],
             issueCache := [], revisionCache := [] } }

/-- Raw review payload for the C1 witness. -/
def c1WRaw : RawReview :=
  { id := "rev1", number := 5,
    revisions := [("r1", { commit_with_footers := some "desc" })],
    subject := "subj", hashtags := none, change_id := "ch1", topic := none,
    owner := c1WOwner, submitter := none, status := "NEW",
    has_review_started := true, created := 1, updated := 2, submitted := none,
    mergeable := some true, current_revision := "r1" }

/-! ## Theorems -/

/-- Replacing the first `p`-match by a `p`-satisfying element makes it the
first match. -/
theorem find?_replaceFirst_self {p : α → Bool} {l : List α} {q a : α}
    (hf : l.find? p = some q) (ha : p a = true) :
    (replaceFirst p a l).find? p = some a := by
  induction l with
  | nil => simp [List.find?] at hf
  | cons x xs ih =>
    by_cases hx : p x = true
    · simp [replaceFirst, hx, List.find?, ha]
    · simp only [List.find?, hx] at hf
      simp [replaceFirst, hx, List.find?, ih hf]

/-- Replacing the first `p`-match by itself is the identity. -/
theorem replaceFirst_of_find?_self {p : α → Bool} {l : List α} {a : α}
    (hf : l.find? p = some a) :
    replaceFirst p a l = l := by
  induction l with
  | nil => rfl
  | cons x xs ih =>
    by_cases hx : p x = true
    · simp only [List.find?, hx] at hf
      simp only [replaceFirst, hx, if_true]
      cases hf
      rfl
    · simp only [List.find?, hx] at hf
      simp [replaceFirst, hx, ih hf]

/-- Search past a prefix with no match. -/
theorem find?_append_of_none {p : α → Bool} {l t : List α}
    (hl : l.find? p = none) :
    (l ++ t).find? p = t.find? p := by
  induction l with
  | nil => rfl
  | cons x xs ih =>
    by_cases hx : p x = true
    · simp [List.find?, hx] at hl
    · simp only [List.find?, hx] at hl
      simp [List.find?, hx, ih hl]

/-- Search stops in a prefix that matches. -/
theorem find?_append_some {p : α → Bool} {l t : List α} {a : α}
    (hl : l.find? p = some a) :
    (l ++ t).find? p = some a := by
  induction l with
  | nil => simp [List.find?] at hl
  | cons x xs ih =>
    by_cases hx : p x = true
    · simp only [List.find?, hx] at hl
      simp [List.find?, hx, hl]
    · simp only [List.find?, hx] at hl
      simp [List.find?, hx, ih hl]

/-- Lookup past a prefix with no match. -/
theorem lookup_append_of_none [BEq α] {l t : List (α × β)} {a : α}
    (hl : l.lookup a = none) :
    (l ++ t).lookup a = t.lookup a := by
  induction l with
  | nil => rfl
  | cons x xs ih =>
    by_cases hx : (a == x.1) = true
    · simp [List.lookup, hx] at hl
    · simp only [List.lookup, hx] at hl
      simp [List.lookup, hx, ih hl]

/-- Replacement skips a prefix with no match. -/
theorem replaceFirst_append_of_none {p : α → Bool} {l t : List α} {a : α}
    (hl : l.find? p = none) :
    replaceFirst p a (l ++ t) = l ++ replaceFirst p a t := by
  induction l with
  | nil => rfl
  | cons x xs ih =>
    by_cases hx : p x = true
    · simp [List.find?, hx] at hl
    · simp only [List.find?, hx] at hl
      simp [replaceFirst, hx, ih hl]

/-- Filtering with a predicate that `find?` cannot satisfy gives the empty
list. -/
theorem filter_eq_nil_of_find?_none {p : α → Bool} {l : List α}
    (h : l.find? p = none) :
    l.filter p = [] := by
  induction l with
  | nil => rfl
  | cons x xs ih =>
    by_cases hx : p x = true
    · simp [List.find?, hx] at h
    · simp only [List.find?, hx] at h
      simp [List.filter, hx, ih h]

/-- Any fold step of `getCommitId` leaves the accumulator unchanged when no
commit of the scanned VCS systems matches the revision hash. -/
theorem getCommitId_foldl_none (commits : List CommitRec) (rh : String) (repoUrl : Option String) :
    ∀ (l : List VcsSystem) (acc : Option Nat),
      (∀ v ∈ l, commits.find? (fun c => c.vcs_system_id == v.id && c.revision_hash == rh) = none) →
      l.foldl
        (fun commitId vcs =>
          if skipVcs repoUrl vcs then commitId
          else
            match commits.find? (fun c => c.vcs_system_id == vcs.id && c.revision_hash == rh) with
            | some c => some c.id
            | none => commitId) acc = acc := by
  intro l
  induction l with
  | nil => intro acc _; rfl
  | cons v vs ih =>
    intro acc h
    have hv := h v (List.mem_cons_self v vs)
    have hrest : ∀ w ∈ vs, commits.find? (fun c => c.vcs_system_id == w.id && c.revision_hash == rh) = none :=
      fun w hw => h w (List.mem_cons_of_mem v hw)
    simp only [List.foldl_cons]
    rw [hv]
    by_cases hcond : skipVcs repoUrl v = true
    · rw [if_pos hcond]; exact ih acc hrest
    · rw [if_neg hcond]; exact ih acc hrest

/-- C10: for every revision hash, `Github._get_commit_id` is total (it
returns an `Option`, never raising: the `DoesNotExist` branch is caught
with `pass`), and when no stored commit of any of the project VCS systems
carries the hash, it returns `none`, so the caller leaves the entity
commit link unset. -/
theorem c10_theorem (vcss : List VcsSystem) (commits : List CommitRec)
    (projectId : Nat) (revisionHash : String) (repoUrl : Option String)
    (hnone : ∀ v ∈ vcss, v.project_id = projectId →
      ∀ c ∈ commits, ¬(c.vcs_system_id = v.id ∧ c.revision_hash = revisionHash)) :
    getCommitId vcss commits projectId revisionHash repoUrl = none := by
  unfold getCommitId
  apply getCommitId_foldl_none
  intro v hv
  rw [List.find?_eq_none]
  intro c hc
  have hvm := List.mem_filter.mp hv
  have hproj : v.project_id = projectId := by
    have := hvm.2
    simpa using this
  have := hnone v hvm.1 hproj c hc
  simp only [Bool.and_eq_true, beq_iff_eq]
  intro hcontra
  exact this ⟨hcontra.1, hcontra.2⟩

/-- Witness for C10 at a concrete store: one VCS system for the project, no
commits at all. -/
theorem c10_theorem_witness :
    getCommitId [{ id := 0, project_id := 0, url := "github.com/o/r" }] [] 0 "abc" none = none :=
  c10_theorem [{ id := 0, project_id := 0, url := "github.com/o/r" }] [] 0 "abc" none (by decide)

/-- C9: whenever the first response is successful and reports fewer than 2
remaining rate-limit units, `Github._send_request` sleeps
`(reset_time - now) + 10` seconds and re-issues the same request once,
returning the payload of that second (post-reset) response; exactly two
HTTP requests are made. -/
theorem c9_theorem (β : Type) (responses : Nat → GhResp β) (now : Int) (r : Nat)
    (h200 : (responses 0).status = 200)
    (hrem : (responses 0).remaining = some r)
    (hlt : r < 2) :
    sendRequest responses now =
      (Except.ok (responses 1).body, [((responses 0).reset - now) + 10], 2) := by
  have hr1 : r ≤ 1 := Nat.lt_succ_iff.mp hlt
  simp [sendRequest, sendRequestGo, h200, hrem, hr1]

/-- Witness for C9: with reset at epoch 100 and now 50 the fetcher waits 60
seconds and returns the re-issued response payload. -/
theorem c9_theorem_witness :
    sendRequest c9Oracle 50 = (Except.ok "fresh", [60], 2) := by
  have h := c9_theorem String c9Oracle 50 1 rfl rfl (by decide)
  simpa [c9Oracle] using h

/-- C5: against a fetcher returning exactly 100, 100, 37 records,
`Github._fetch_all_pages` does NOT return the 237 accumulated records and
does NOT stop after the 37-record page: it issues a fourth request (the
empty page) and returns that final empty page (`return dat` instead of
`ret`), i.e. zero records, although its accumulator holds all 237. -/
theorem c5_theorem :
    (fetchAllPages c5Fetch 10).1 = [] ∧
    (fetchAllPages c5Fetch 10).2.1.length = 237 ∧
    (fetchAllPages c5Fetch 10).2.2 = 4 := by decide

/-- C8: neither pagination path tolerates an empty final page as claimed.
`Gerrit.get_reviews` evaluates `data[-1]` on the empty page and raises
`IndexError` instead of terminating normally; `Github._fetch_all_pages`
terminates without error but returns the empty final page, discarding the
100 previously accumulated records. -/
theorem c8_theorem :
    getReviews c8GerritFetch 5 = Except.error "IndexError: list index out of range" ∧
    (fetchAllPages c8GhFetch 10).1 = [] ∧
    (fetchAllPages c8GhFetch 10).2.1.length = 100 := by decide

/-- C4: syncing pull request 1 with requested reviewers X (person 0) and Y
(person 1) and then re-syncing it with only X leaves a stored
requested-reviewer list of [0, 1, 0] - the loop at github.py:245 appends
to the loaded record list instead of recomputing it wholesale - where the
claim requires exactly [0]. -/
theorem c4_theorem :
    (storePr c4Ctx (storePr c4Ctx ghEmpty (c4RawPr [{ url := "ux" }, { url := "uy" }])).2
        (c4RawPr [{ url := "ux" }])).1.data.requested_reviewer_ids = [0, 1, 0] ∧
    ([0, 1, 0] : List Nat) ≠ [0] := by decide

/-- C7 counterexample: when every attempt returns HTTP 500,
`Gerrit._make_request` retries three times (sleeping 2 seconds after each
failure) and then returns the literal empty object - a substitute value -
rather than raising a `RequestFailed`-style error; its result type has no
error case at all, so the claimed escalation never happens. -/
theorem c7_counterexample :
    gerritMakeRequest c7GerritFail = (GerritPayload.emptyObj, [2, 2, 2]) := by decide

/-- C7 amended: on a request whose response status is non-success on every
attempt, both fetchers make 3 attempts sleeping 2 seconds after each
failed one, and on exhaustion `Github._send_request` raises a
`requests.RequestException` while `Gerrit._make_request` instead returns
the empty object. -/
theorem c7_theorem (β γ : Type) (now : Int)
    (ghResponses : Nat → GhResp β) (gResponses : Nat → GerritHttpResp γ)
    (hg : ∀ i, (ghResponses i).status ≠ 200)
    (hr : ∀ i, (gResponses i).status ≠ 200) :
    sendRequest ghResponses now =
      (Except.error "Problem with getting data via url.", [2, 2, 2], 3) ∧
    gerritMakeRequest gResponses = (GerritPayload.emptyObj, [2, 2, 2]) := by
  constructor
  · simp [sendRequest, sendRequestGo, hg 0, hg 1, hg 2]
  · simp [gerritMakeRequest, gerritMakeRequestGo, hr 0, hr 1, hr 2]

/-- Witness for the amended C7 at concrete everywhere-failing oracles. -/
theorem c7_theorem_witness :
    sendRequest c7GhFail 0 =
      (Except.error "Problem with getting data via url.", [2, 2, 2], 3) ∧
    gerritMakeRequest c7GerritFailB = (GerritPayload.emptyObj, [2, 2, 2]) :=
  c7_theorem String Nat 0 c7GhFail c7GerritFailB
    (fun i => by simp [c7GhFail]) (fun i => by simp [c7GerritFailB])

/-- C6 counterexample: with stored reviews updated at 5 and 10, the most
recent `updated_at` is 10, but `Gerrit.get_reviews` bounds its listing
query by the OLDEST one (5) and with the `before:` operator - the query
built is `repo:nova before:5`, an only-changed-BEFORE bound, not the
claimed only-changed-since bound at the most recent timestamp. -/
theorem c6_counterexample :
    reviewsQuery "nova" c6Store 1 0 = { start := 0, n := 50, q := "repo:nova before:5" } ∧
    specMostRecentUpdated c6Store 1 = some 10 ∧
    oldestReviewFor c6Store 1 = some { code_review_system_ids := [1], updated_at := 5 } ∧
    (5 : Nat) ≠ 10 := by decide

/-- The watermark fold of `oldestReviewFor` returns a minimal element. -/
theorem oldestReviewFold_min :
    ∀ (l : List StoredReviewStub) (m0 : StoredReviewStub),
      ∃ m, l.foldl
          (fun acc r =>
            match acc with
            | none => some r
            | some m => if r.updated_at < m.updated_at then some r else some m)
          (some m0) = some m ∧
        m.updated_at ≤ m0.updated_at ∧ ∀ r ∈ l, m.updated_at ≤ r.updated_at := by
  intro l
  induction l with
  | nil => exact fun m0 => ⟨m0, rfl, le_refl _, by simp⟩
  | cons x xs ih =>
    intro m0
    by_cases hx : x.updated_at < m0.updated_at
    · obtain ⟨m, hm, hle, hall⟩ := ih x
      refine ⟨m, ?_, le_trans hle (le_of_lt hx), ?_⟩
      · simpa [hx] using hm
      · intro r hr
        rcases List.mem_cons.mp hr with h | h
        · exact h ▸ hle
        · exact hall r h
    · obtain ⟨m, hm, hle, hall⟩ := ih m0
      refine ⟨m, ?_, hle, ?_⟩
      · simpa [hx] using hm
      · intro r hr
        rcases List.mem_cons.mp hr with h | h
        · exact h ▸ le_trans hle (not_lt.mp hx)
        · exact hall r h

/-- C6 amended: whenever the source has at least one stored review, the
thread-listing query built by `Gerrit.get_reviews` is bounded by the
OLDEST `updated_at` among the stored reviews of that review system, using
the `before:` operator - the connector back-fills threads changed before
that watermark rather than fetching threads changed since the most recent
one. -/
theorem c6_theorem (projectName : String) (reviews : List StoredReviewStub) (sysId start : Nat)
    (hne : reviews.filter (fun r => r.code_review_system_ids.contains sysId) ≠ []) :
    ∃ m, oldestReviewFor reviews sysId = some m ∧
      (∀ r ∈ reviews.filter (fun r => r.code_review_system_ids.contains sysId),
        m.updated_at ≤ r.updated_at) ∧
      reviewsQuery projectName reviews sysId start =
        { start := start, n := 50,
          q := "repo:" ++ projectName ++ (" before:" ++ dateStr m.updated_at) } := by
  rcases hl : reviews.filter (fun r => r.code_review_system_ids.contains sysId) with _ | ⟨x, xs⟩
  · exact absurd hl hne
  · obtain ⟨m, hm, hle, hall⟩ := oldestReviewFold_min xs x
    have hfold : oldestReviewFor reviews sysId = some m := by
      unfold oldestReviewFor
      rw [hl]
      simpa using hm
    refine ⟨m, hfold, ?_, ?_⟩
    · intro r hr
      rw [hl] at hr
      rcases List.mem_cons.mp hr with h | h
      · exact h ▸ hle
      · exact hall r h
    · unfold reviewsQuery
      rw [hfold]

/-- Witness for the amended C6 at the concrete two-review store. -/
theorem c6_theorem_witness :
    reviewsQuery "nova" c6Store 1 0 = { start := 0, n := 50, q := "repo:nova before:5" } := by
  obtain ⟨m, hm, hmin, hq⟩ := c6_theorem "nova" c6Store 1 0 (by decide)
  have hv : oldestReviewFor c6Store 1 = some { code_review_system_ids := [1], updated_at := 5 } := by
    decide
  rw [hv] at hm
  rw [hq, (Option.some.inj hm).symm]
  decide

/-- C3 counterexample: `Github._get_person` performs a single upsert by
(name, email) and never falls back to a (username, name) lookup.  With a
person already stored under (username U, name N) but another email, the
raw user (login U, name N, no email) misses the (name, email) lookup and
a second person record is created for the same username+name natural key
- refuting both the claimed two-step lookup and the claimed absence of
duplicates. -/
theorem c3_counterexample :
    (getPerson c3Ctx c3S0 "u1").1 = 1 ∧
    ((getPerson c3Ctx c3S0 "u1").2.people.filter
      (fun p => p.username == "U" && p.name == "N")).length = 2 := by decide

/-- Resolving a second raw person with the same synthesized triple right
after `_store_people` resolved the first returns the same person id and
creates no record, for any intermediate change to the cache fields. -/
theorem storePeople_resolve_again (res res2 : ResState) (p1 p2 : RawPerson)
    (hname : synthName p1 = synthName p2)
    (hmail : synthEmail p1 = synthEmail p2)
    (huser : synthUsername p1 = synthUsername p2)
    (hp : res2.people = (storePeople res p1).2.people) :
    (storePeople res2 p2).1 = (storePeople res p1).1 ∧
    (storePeople res2 p2).2.people = res2.people := by
  rcases h1 : findByEmailName res.people p1 with _ | p
  · rcases h2 : findByUsernameName res.people p1 with _ | q
    · -- p1 was created
      have hS1 : storePeople res p1 =
          (res.people.length,
           { res with people := res.people ++
              [{ id := res.people.length, name := synthName p1,
                 username := synthUsername p1, email := synthEmail p1 }] }) := by
        unfold storePeople
        rw [h1, h2]
      have hppl : res2.people = res.people ++
          [{ id := res.people.length, name := synthName p1,
             username := synthUsername p1, email := synthEmail p1 }] := by
        rw [hp, hS1]
      have hE2 : findByEmailName res2.people p2 =
          some { id := res.people.length, name := synthName p1,
                 username := synthUsername p1, email := synthEmail p1 } := by
        unfold findByEmailName
        rw [← hmail, ← hname, hppl]
        rw [find?_append_of_none (by simpa [findByEmailName] using h1)]
        simp [List.find?]
      have hS2 : storePeople res2 p2 =
          ((({ id := res.people.length, name := synthName p1,
               username := synthUsername p1, email := synthEmail p1 } : Person)).id, res2) := by
        unfold storePeople
        rw [hE2]
      rw [hS2, hS1]
      exact ⟨rfl, rfl⟩
    · -- p1 found by (username, name)
      have hS1 : storePeople res p1 = (q.id, res) := by
        unfold storePeople
        rw [h1, h2]
      have hppl : res2.people = res.people := by rw [hp, hS1]
      have hE2 : findByEmailName res2.people p2 = none := by
        unfold findByEmailName
        rw [← hmail, ← hname, hppl]
        simpa [findByEmailName] using h1
      have hU2 : findByUsernameName res2.people p2 = some q := by
        unfold findByUsernameName
        rw [← huser, ← hname, hppl]
        simpa [findByUsernameName] using h2
      have hS2 : storePeople res2 p2 = (q.id, res2) := by
        unfold storePeople
        rw [hE2, hU2]
      rw [hS2, hS1]
      exact ⟨rfl, rfl⟩
  · -- p1 found by (email, name)
    have hS1 : storePeople res p1 = (p.id, res) := by
      unfold storePeople
      rw [h1]
    have hppl : res2.people = res.people := by rw [hp, hS1]
    have hE2 : findByEmailName res2.people p2 = some p := by
      unfold findByEmailName
      rw [← hmail, ← hname, hppl]
      simpa [findByEmailName] using h1
    have hS2 : storePeople res2 p2 = (p.id, res2) := by
      unfold storePeople
      rw [hE2]
    rw [hS2, hS1]
    exact ⟨rfl, rfl⟩

/-- Unfolding of `_get_people_id` on a cache miss. -/
theorem getPeopleId_eq_of_lookup_none (res : ResState) (rp : RawPerson)
    (h : res.peopleCache.lookup rp.account_id = none) :
    getPeopleId res (some rp) =
      (some (storePeople res rp).1,
       { (storePeople res rp).2 with
         peopleCache := (storePeople res rp).2.peopleCache ++
           [(rp.account_id, (storePeople res rp).1)] }) := by
  simp only [getPeopleId, h]

/-- Unfolding of `_get_people_id` on a cache hit. -/
theorem getPeopleId_eq_of_lookup_some (res : ResState) (rp : RawPerson) (pid : Nat)
    (h : res.peopleCache.lookup rp.account_id = some pid) :
    getPeopleId res (some rp) = (some pid, res) := by
  simp only [getPeopleId, h]

/-- C3 amended (the Gerrit side): `_get_people_id` and `_store_people`
synthesize missing fields, look up by (email, name) then by
(username, name), and create only when both fail; two raw actor records
with the same synthesized (name, email, username) fields but different
account ids (neither cached yet) resolve to the same local person id and
the second resolution creates no additional person record. -/
theorem c3_theorem (res : ResState) (p1 p2 : RawPerson)
    (hname : synthName p1 = synthName p2)
    (hmail : synthEmail p1 = synthEmail p2)
    (huser : synthUsername p1 = synthUsername p2)
    (h1 : res.peopleCache.lookup p1.account_id = none)
    (h2 : res.peopleCache.lookup p2.account_id = none) :
    (getPeopleId (getPeopleId res (some p1)).2 (some p2)).1 =
      (getPeopleId res (some p1)).1 ∧
    (getPeopleId (getPeopleId res (some p1)).2 (some p2)).2.people =
      (getPeopleId res (some p1)).2.people := by
  have hcache1 : (storePeople res p1).2.peopleCache = res.peopleCache := by
    unfold storePeople
    rcases hf : findByEmailName res.people p1 with _ | p
    · rcases hg : findByUsernameName res.people p1 with _ | q <;> rfl
    · rfl
  rw [getPeopleId_eq_of_lookup_none res p1 h1]
  by_cases hacct : p2.account_id == p1.account_id
  · have hlk : (({ (storePeople res p1).2 with
        peopleCache := (storePeople res p1).2.peopleCache ++
          [(p1.account_id, (storePeople res p1).1)] } : ResState)).peopleCache.lookup
          p2.account_id = some (storePeople res p1).1 := by
      show ((storePeople res p1).2.peopleCache ++
        [(p1.account_id, (storePeople res p1).1)]).lookup p2.account_id = _
      rw [hcache1, lookup_append_of_none h2]
      simp [List.lookup, hacct]
    rw [getPeopleId_eq_of_lookup_some _ p2 _ hlk]
    exact ⟨rfl, rfl⟩
  · have hlk : (({ (storePeople res p1).2 with
        peopleCache := (storePeople res p1).2.peopleCache ++
          [(p1.account_id, (storePeople res p1).1)] } : ResState)).peopleCache.lookup
          p2.account_id = none := by
      show ((storePeople res p1).2.peopleCache ++
        [(p1.account_id, (storePeople res p1).1)]).lookup p2.account_id = _
      rw [hcache1, lookup_append_of_none h2]
      simp [List.lookup, hacct]
    have hsp := storePeople_resolve_again res
      ({ (storePeople res p1).2 with
         peopleCache := (storePeople res p1).2.peopleCache ++
           [(p1.account_id, (storePeople res p1).1)] } : ResState)
      p1 p2 hname hmail huser rfl
    rw [getPeopleId_eq_of_lookup_none _ p2 hlk]
    exact ⟨by rw [hsp.1], by exact hsp.2⟩

/-- Witness for the amended C3 at two concrete raw actors over the empty
store. -/
theorem c3_theorem_witness :
    (getPeopleId (getPeopleId resEmpty (some c3P1)).2 (some c3P2)).1 =
      (getPeopleId resEmpty (some c3P1)).1 ∧
    (getPeopleId (getPeopleId resEmpty (some c3P1)).2 (some c3P2)).2.people =
      (getPeopleId resEmpty (some c3P1)).2.people :=
  c3_theorem resEmpty c3P1 c3P2 rfl rfl rfl rfl rfl

/-- Frame property: `Github._get_person` touches only the people store and
its cache; the review-comment collection is untouched. -/
theorem getPerson_reviewComments (ctx : GHCtx) (s : GHState) (u : String) :
    (getPerson ctx s u).2.reviewComments = s.reviewComments := by
  unfold getPerson
  split
  · rfl
  · dsimp only
    split <;> rfl

/-- Review-comment loop, new comment whose reply marker points to a
not-yet-seen target: a placeholder with the target external id is
persisted immediately and the new comment is appended after it, carrying
the placeholder id in `in_reply_to_id`. -/
theorem storeGhReviewComment_new_forward (ctx : GHCtx) (s : GHState) (prrId : Nat)
    (raw : RawPRRC) (ext : String)
    (hfound : s.reviewComments.find?
      (fun c => c.data.pull_request_review_id == prrId && c.data.external_id == raw.id) = none)
    (hrep : raw.in_reply_to_id = some ext)
    (htgt : s.reviewComments.find?
      (fun c => c.data.pull_request_review_id == prrId && c.data.external_id == ext) = none) :
    (storeGhReviewComment ctx s prrId raw).reviewComments =
      s.reviewComments ++
        [{ id := s.reviewComments.length, data := placeholderPRRCData prrId ext },
         { id := s.reviewComments.length + 1,
           data := ghPrrcDataOf prrId (getPerson ctx s raw.user_url).1
             (some s.reviewComments.length) raw }] := by
  unfold storeGhReviewComment
  dsimp only
  simp only [hrep, getPerson_reviewComments, hfound, htgt]
  simp [List.append_assoc]

/-- Review-comment loop, already-stored comment without a reply marker: the
record is overwritten in place by natural key. -/
theorem storeGhReviewComment_existing_noreply (ctx : GHCtx) (s : GHState) (prrId : Nat)
    (raw : RawPRRC) (c : PRRC)
    (hfound : s.reviewComments.find?
      (fun q => q.data.pull_request_review_id == prrId && q.data.external_id == raw.id) = some c)
    (hrep : raw.in_reply_to_id = none) :
    (storeGhReviewComment ctx s prrId raw).reviewComments =
      replaceFirst (fun q => q.data.pull_request_review_id == prrId && q.data.external_id == raw.id)
        { id := c.id, data := ghPrrcDataOf prrId (getPerson ctx s raw.user_url).1 none raw }
        s.reviewComments := by
  unfold storeGhReviewComment
  dsimp only
  simp only [hrep, getPerson_reviewComments, hfound]

/-- C2 counterexample: `Gerrit.store_comments` creates no placeholder for
the unseen reply target.  Processing a batch holding only the reply B
(`in_reply_to` = "A") leaves exactly one stored comment, whose external
id is "B" and whose `in_reply_to_id` field holds the raw remote marker
string "A" - no record carrying the target external id is persisted and
no local placeholder id is stored, refuting the claimed
placeholder-then-overwrite resolution for this cited code path. -/
theorem c2_counterexample :
    (storeComments c2GDB 7 [("f.py", [c2RawB])]).map
      (fun r => (r.2.comments.map (fun c => c.data.external_id),
                 r.2.comments.map (fun c => c.data.in_reply_to_id))) =
      Except.ok (["B"], [some "A"]) := by decide

/-- C2 amended (the GitHub review-comment path): in a batch where reply B
(`in_reply_to_id` = the external id of A) is processed before comment A,
the loop persists a placeholder carrying the external id of A, stores
that placeholder id (never null) in the `in_reply_to_id` of B, and the
later arrival of A overwrites the placeholder by natural key -
afterwards exactly one record exists for the external id of A, it
carries the content of A, and the `in_reply_to_id` of B equals its id. -/
theorem c2_theorem (ctx : GHCtx) (s0 : GHState) (prrId : Nat) (A B : RawPRRC)
    (hBr : B.in_reply_to_id = some A.id)
    (hAr : A.in_reply_to_id = none)
    (hne : B.id ≠ A.id)
    (hA0 : s0.reviewComments.find?
      (fun c => c.data.pull_request_review_id == prrId && c.data.external_id == A.id) = none)
    (hB0 : s0.reviewComments.find?
      (fun c => c.data.pull_request_review_id == prrId && c.data.external_id == B.id) = none) :
    ∃ aRec bRec : PRRC,
      (storeGhReviewComments ctx s0 prrId [B, A]).reviewComments.find?
        (fun c => c.data.pull_request_review_id == prrId && c.data.external_id == A.id) = some aRec ∧
      ((storeGhReviewComments ctx s0 prrId [B, A]).reviewComments.filter
        (fun c => c.data.pull_request_review_id == prrId && c.data.external_id == A.id)).length = 1 ∧
      aRec.data.comment = some A.body ∧
      (storeGhReviewComments ctx s0 prrId [B, A]).reviewComments.find?
        (fun c => c.data.pull_request_review_id == prrId && c.data.external_id == B.id) = some bRec ∧
      bRec.data.in_reply_to_id = some aRec.id := by
  have hs1 : (storeGhReviewComment ctx s0 prrId B).reviewComments =
      s0.reviewComments ++
        [{ id := s0.reviewComments.length, data := placeholderPRRCData prrId A.id },
         { id := s0.reviewComments.length + 1,
           data := ghPrrcDataOf prrId (getPerson ctx s0 B.user_url).1
             (some s0.reviewComments.length) B }] :=
    storeGhReviewComment_new_forward ctx s0 prrId B A.id hB0 hBr hA0
  have hfoundA : (storeGhReviewComment ctx s0 prrId B).reviewComments.find?
      (fun c => c.data.pull_request_review_id == prrId && c.data.external_id == A.id) =
      some { id := s0.reviewComments.length, data := placeholderPRRCData prrId A.id } := by
    rw [hs1, find?_append_of_none hA0]
    simp [List.find?, placeholderPRRCData]
  have hsF : (storeGhReviewComment ctx (storeGhReviewComment ctx s0 prrId B) prrId A).reviewComments =
      replaceFirst (fun q => q.data.pull_request_review_id == prrId && q.data.external_id == A.id)
        { id := s0.reviewComments.length,
          data := ghPrrcDataOf prrId
            (getPerson ctx (storeGhReviewComment ctx s0 prrId B) A.user_url).1 none A }
        (storeGhReviewComment ctx s0 prrId B).reviewComments :=
    storeGhReviewComment_existing_noreply ctx _ prrId A _ hfoundA hAr
  have hfinal : (storeGhReviewComments ctx s0 prrId [B, A]).reviewComments =
      s0.reviewComments ++
        [{ id := s0.reviewComments.length,
           data := ghPrrcDataOf prrId
             (getPerson ctx (storeGhReviewComment ctx s0 prrId B) A.user_url).1 none A },
         { id := s0.reviewComments.length + 1,
           data := ghPrrcDataOf prrId (getPerson ctx s0 B.user_url).1
             (some s0.reviewComments.length) B }] := by
    show (storeGhReviewComment ctx (storeGhReviewComment ctx s0 prrId B) prrId A).reviewComments = _
    rw [hsF, hs1, replaceFirst_append_of_none hA0]
    simp [replaceFirst, placeholderPRRCData]
  refine ⟨{ id := s0.reviewComments.length,
            data := ghPrrcDataOf prrId
              (getPerson ctx (storeGhReviewComment ctx s0 prrId B) A.user_url).1 none A },
          { id := s0.reviewComments.length + 1,
            data := ghPrrcDataOf prrId (getPerson ctx s0 B.user_url).1
              (some s0.reviewComments.length) B }, ?_, ?_, rfl, ?_, rfl⟩
  · rw [hfinal, find?_append_of_none hA0]
    simp [List.find?, ghPrrcDataOf]
  · rw [hfinal, List.filter_append, filter_eq_nil_of_find?_none hA0]
    have hbb : (B.id == A.id) = false := beq_eq_false_iff_ne.mpr hne
    simp [List.filter, ghPrrcDataOf, hbb]
  · rw [hfinal, find?_append_of_none hB0]
    have hab : (A.id == B.id) = false := beq_eq_false_iff_ne.mpr (fun h => hne h.symm)
    simp [List.find?, ghPrrcDataOf, hab]

/-- Witness for the amended C2 at a concrete out-of-order batch. -/
theorem c2_theorem_witness :
    ∃ aRec bRec : PRRC,
      (storeGhReviewComments c2WCtx ghEmpty 1 [c2B, c2A]).reviewComments.find?
        (fun c => c.data.pull_request_review_id == 1 && c.data.external_id == c2A.id) = some aRec ∧
      ((storeGhReviewComments c2WCtx ghEmpty 1 [c2B, c2A]).reviewComments.filter
        (fun c => c.data.pull_request_review_id == 1 && c.data.external_id == c2A.id)).length = 1 ∧
      aRec.data.comment = some c2A.body ∧
      (storeGhReviewComments c2WCtx ghEmpty 1 [c2B, c2A]).reviewComments.find?
        (fun c => c.data.pull_request_review_id == 1 && c.data.external_id == c2B.id) = some bRec ∧
      bRec.data.in_reply_to_id = some aRec.id :=
  c2_theorem c2WCtx ghEmpty 1 c2A c2B rfl rfl (by decide) rfl rfl

/-- State preservation: when the (email, name) lookup succeeds,
`_store_people` leaves the state untouched. -/
theorem storePeople_state_of_resolves {res : ResState} {rp : RawPerson}
    (h : (findByEmailName res.people rp).isSome) :
    (storePeople res rp).2 = res := by
  unfold storePeople
  rcases hf : findByEmailName res.people rp with _ | p
  · rw [hf] at h
    simp at h
  · simp only [hf]

/-- Frame property: `_store_people` never touches the issues, revisions or
caches. -/
theorem storePeople_frame (res : ResState) (rp : RawPerson) :
    (storePeople res rp).2.issues = res.issues ∧
    (storePeople res rp).2.revisions = res.revisions ∧
    (storePeople res rp).2.peopleCache = res.peopleCache ∧
    (storePeople res rp).2.issueCache = res.issueCache ∧
    (storePeople res rp).2.revisionCache = res.revisionCache := by
  unfold storePeople
  rcases hf : findByEmailName res.people rp with _ | p
  · rcases hg : findByUsernameName res.people rp with _ | q <;> simp [hf, hg]
  · simp [hf]

/-- Frame property: `_get_people_id` never touches the issues or revisions
stores. -/
theorem getPeopleId_frame (res : ResState) (rpq : Option RawPerson) :
    (getPeopleId res rpq).2.issues = res.issues ∧
    (getPeopleId res rpq).2.revisions = res.revisions := by
  unfold getPeopleId
  rcases rpq with _ | rp
  · exact ⟨rfl, rfl⟩
  · rcases hl : res.peopleCache.lookup rp.account_id with _ | pid
    · simp only [hl]
      exact ⟨(storePeople_frame res rp).1, (storePeople_frame res rp).2.1⟩
    · simp [hl]

/-- People preservation: `_get_people_id` creates no person when the
referenced raw account (if any) already resolves by (email, name). -/
theorem getPeopleId_people (res : ResState) (rpq : Option RawPerson)
    (h : ∀ rp, rpq = some rp → (findByEmailName res.people rp).isSome) :
    (getPeopleId res rpq).2.people = res.people := by
  unfold getPeopleId
  rcases rpq with _ | rp
  · rfl
  · rcases hl : res.peopleCache.lookup rp.account_id with _ | pid
    · simp only [hl]
      rw [storePeople_state_of_resolves (h rp rfl)]
    · simp only [hl]

/-- Frame property: one issue-candidate step never touches the people,
issues or revisions stores. -/
theorem issueStep_frame (res : ResState) (acc : List Nat) (cand : String) :
    (issueStep res acc cand).2.people = res.people ∧
    (issueStep res acc cand).2.issues = res.issues ∧
    (issueStep res acc cand).2.revisions = res.revisions := by
  unfold issueStep
  rcases hl : res.issueCache.lookup cand with _ | iid
  · rcases hf : res.issues.find? (fun iss => iss.external_id == cand) with _ | iss <;>
      simp [hl, hf]
  · simp [hl]

/-- Frame property: the issue-candidate loop never touches the people,
issues or revisions stores. -/
theorem issueLoop_frame :
    ∀ (cands : List String) (res : ResState) (acc : List Nat),
      (issueLoop res acc cands).2.people = res.people ∧
      (issueLoop res acc cands).2.issues = res.issues ∧
      (issueLoop res acc cands).2.revisions = res.revisions := by
  intro cands
  induction cands with
  | nil => exact fun res acc => ⟨rfl, rfl, rfl⟩
  | cons c cs ih =>
    intro res acc
    have hs := issueStep_frame res acc c
    have ht := ih (issueStep res acc c).2 (issueStep res acc c).1
    exact ⟨by rw [issueLoop]; rw [ht.1, hs.1],
           by rw [issueLoop]; rw [ht.2.1, hs.2.1],
           by rw [issueLoop]; rw [ht.2.2, hs.2.2]⟩

/-- Frame property: `_get_issue_id` never touches the people, issues or
revisions stores. -/
theorem getIssueId_frame (ctx : GerritCtx) (res : ResState) (topic description : Option String) :
    (getIssueId ctx res topic description).2.people = res.people ∧
    (getIssueId ctx res topic description).2.issues = res.issues ∧
    (getIssueId ctx res topic description).2.revisions = res.revisions := by
  unfold getIssueId
  by_cases hl : ctx.link = true
  · simp only [hl, if_true]
    exact issueLoop_frame (ctx.extract topic description) res []
  · simp only [hl, if_false]
    exact ⟨rfl, rfl, rfl⟩

/-- Frame property: a successful `_get_revision_id` only touches the
revision cache. -/
theorem getRevisionId_frame {res : ResState} {cid rnum : Nat} {tr : Nat × ResState}
    (h : getRevisionId res cid rnum = some tr) :
    tr.2.people = res.people ∧ tr.2.issues = res.issues ∧ tr.2.revisions = res.revisions := by
  unfold getRevisionId at h
  rcases hl : res.revisionCache.lookup (cid, rnum) with _ | rid
  · rw [hl] at h
    rcases hf : res.revisions.find?
        (fun rv => rv.code_review_id == cid && rv.revision_number == rnum) with _ | rv
    · rw [hf] at h
      cases h
    · rw [hf] at h
      cases h
      exact ⟨rfl, rfl, rfl⟩
  · rw [hl] at h
    cases h
    exact ⟨rfl, rfl, rfl⟩

/-- Field fact: `reviewDataOf` sets `external_id` straight from the raw
payload. -/
theorem reviewDataOf_external_id (ctx : GerritCtx) (res : ResState) (raw : RawReview) :
    (reviewDataOf ctx res raw).1.external_id = raw.id := rfl

/-- Frame property: the resolver threading of `store_review` preserves the
issues and revisions stores, and the people store too when the owner and
submitter resolve by (email, name). -/
theorem reviewDataOf_frame (ctx : GerritCtx) (res : ResState) (raw : RawReview)
    (hown : (findByEmailName res.people raw.owner).isSome)
    (hsub : ∀ rp, raw.submitter = some rp → (findByEmailName res.people rp).isSome) :
    (reviewDataOf ctx res raw).2.people = res.people ∧
    (reviewDataOf ctx res raw).2.issues = res.issues ∧
    (reviewDataOf ctx res raw).2.revisions = res.revisions := by
  have hI := getIssueId_frame ctx res raw.topic (descriptionFromRevisions raw)
  have hA := getPeopleId_frame (getIssueId ctx res raw.topic (descriptionFromRevisions raw)).2
    (some raw.owner)
  have hAp := getPeopleId_people (getIssueId ctx res raw.topic (descriptionFromRevisions raw)).2
    (some raw.owner) (by intro rp h; cases h; rw [hI.1]; exact hown)
  have hS := getPeopleId_frame
    (getPeopleId (getIssueId ctx res raw.topic (descriptionFromRevisions raw)).2 (some raw.owner)).2
    raw.submitter
  have hSp := getPeopleId_people
    (getPeopleId (getIssueId ctx res raw.topic (descriptionFromRevisions raw)).2 (some raw.owner)).2
    raw.submitter (by intro rp h; rw [hAp, hI.1]; exact hsub rp h)
  refine ⟨?_, ?_, ?_⟩
  · show (getPeopleId (getPeopleId (getIssueId ctx res raw.topic
      (descriptionFromRevisions raw)).2 (some raw.owner)).2 raw.submitter).2.people = res.people
    rw [hSp, hAp, hI.1]
  · show (getPeopleId (getPeopleId (getIssueId ctx res raw.topic
      (descriptionFromRevisions raw)).2 (some raw.owner)).2 raw.submitter).2.issues = res.issues
    rw [hS.1, hA.1, hI.2.1]
  · show (getPeopleId (getPeopleId (getIssueId ctx res raw.topic
      (descriptionFromRevisions raw)).2 (some raw.owner)).2 raw.submitter).2.revisions = res.revisions
    rw [hS.2, hA.2, hI.2.2]

/-- Unfolding of `store_review` on a natural-key hit. -/
theorem storeReview_eq_found (ctx : GerritCtx) (db : GDB) (raw : RawReview) (r : Review)
    (hf : db.reviews.find? (fun q => q.data.external_id == raw.id) = some r) :
    storeReview ctx db raw =
      ({ id := r.id, data := (reviewDataOf ctx db.res raw).1 },
       { db with
         reviews := replaceFirst (fun q => q.data.external_id == raw.id)
           { id := r.id, data := (reviewDataOf ctx db.res raw).1 } db.reviews,
         res := (reviewDataOf ctx db.res raw).2 }) := by
  unfold storeReview
  simp only [hf]

/-- Unfolding of `store_review` on a natural-key miss. -/
theorem storeReview_eq_new (ctx : GerritCtx) (db : GDB) (raw : RawReview)
    (hf : db.reviews.find? (fun q => q.data.external_id == raw.id) = none) :
    storeReview ctx db raw =
      ({ id := db.reviews.length, data := (reviewDataOf ctx db.res raw).1 },
       { db with
         reviews := db.reviews ++
           [{ id := db.reviews.length, data := (reviewDataOf ctx db.res raw).1 }],
         res := (reviewDataOf ctx db.res raw).2 }) := by
  unfold storeReview
  simp only [hf]

/-- Record fact: the review returned by `store_review` carries the computed
field map. -/
theorem storeReview_data (ctx : GerritCtx) (db : GDB) (raw : RawReview) :
    (storeReview ctx db raw).1.data = (reviewDataOf ctx db.res raw).1 := by
  rcases hf : db.reviews.find? (fun q => q.data.external_id == raw.id) with _ | r
  · rw [storeReview_eq_new ctx db raw hf]
  · rw [storeReview_eq_found ctx db raw r hf]

/-- Frame property: `store_review` leaves the change logs and comments
untouched, and its resolver state is the one threaded through the field
computation. -/
theorem storeReview_frame (ctx : GerritCtx) (db : GDB) (raw : RawReview) :
    (storeReview ctx db raw).2.changeLogs = db.changeLogs ∧
    (storeReview ctx db raw).2.comments = db.comments ∧
    (storeReview ctx db raw).2.res = (reviewDataOf ctx db.res raw).2 := by
  rcases hf : db.reviews.find? (fun q => q.data.external_id == raw.id) with _ | r
  · rw [storeReview_eq_new ctx db raw hf]
    exact ⟨rfl, rfl, rfl⟩
  · rw [storeReview_eq_found ctx db raw r hf]
    exact ⟨rfl, rfl, rfl⟩

/-- Persistence fact: after `store_review`, the review is findable by its
natural key and is exactly the returned record. -/
theorem storeReview_find_self (ctx : GerritCtx) (db : GDB) (raw : RawReview) :
    (storeReview ctx db raw).2.reviews.find? (fun q => q.data.external_id == raw.id) =
      some (storeReview ctx db raw).1 := by
  have hkey : (({ id := db.reviews.length, data := (reviewDataOf ctx db.res raw).1 } : Review).data.external_id
      == raw.id) = true := by
    rw [reviewDataOf_external_id]
    simp
  rcases hf : db.reviews.find? (fun q => q.data.external_id == raw.id) with _ | r
  · rw [storeReview_eq_new ctx db raw hf]
    show (db.reviews ++ [_]).find? _ = _
    rw [find?_append_of_none hf]
    simp only [List.find?, hkey]
  · rw [storeReview_eq_found ctx db raw r hf]
    show (replaceFirst _ _ db.reviews).find? _ = _
    exact find?_replaceFirst_self hf (by rw [reviewDataOf_external_id]; simp)

/-- Membership fact: a data payload queued for the change-log batch insert
appears in the inserted records. -/
theorem assignLogIds_data :
    ∀ (ds : List ChangeLogData) (start : Nat) (d : ChangeLogData), d ∈ ds →
      ∃ c ∈ assignLogIds start ds, c.data = d := by
  intro ds
  induction ds with
  | nil => intro start d hd; cases hd
  | cons x xs ih =>
    intro start d hd
    rcases List.mem_cons.mp hd with h | h
    · exact ⟨{ id := start, data := x }, List.mem_cons_self _ _, by rw [h]⟩
    · obtain ⟨c, hc, hcd⟩ := ih (start + 1) d h
      exact ⟨c, List.mem_cons_of_mem _ hc, hcd⟩

/-- Existence of a `find?` result from a matching member. -/
theorem find?_isSome_of_mem {p : α → Bool} {l : List α} {a : α}
    (ha : a ∈ l) (hp : p a = true) :
    ∃ b, l.find? p = some b := by
  induction l with
  | nil => cases ha
  | cons x xs ih =>
    by_cases hx : p x = true
    · exact ⟨x, by simp [List.find?, hx]⟩
    · rcases List.mem_cons.mp ha with h | h
      · exact absurd (h ▸ hp) hx
      · obtain ⟨b, hb⟩ := ih h
        exact ⟨b, by simp [List.find?, hx, hb]⟩

/-- Frame property: the change-log loop never touches the reviews,
comments, issues or revisions stores. -/
theorem storeChangeLogsGo_frame (cid : Nat) :
    ∀ (raws : List RawChangeLog) (db : GDB) (coll : List ChangeLog)
      (save : List ChangeLogData) (L : List ChangeLog) (db2 : GDB),
      storeChangeLogsGo cid db coll save raws = Except.ok (L, db2) →
      db2.reviews = db.reviews ∧ db2.comments = db.comments ∧
      db2.res.issues = db.res.issues ∧ db2.res.revisions = db.res.revisions := by
  intro raws
  induction raws with
  | nil =>
    intro db coll save L db2 h
    simp only [storeChangeLogsGo, Except.ok.injEq, Prod.mk.injEq] at h
    obtain ⟨hL, hdb⟩ := h
    subst hdb
    exact ⟨rfl, rfl, rfl, rfl⟩
  | cons raw rest ih =>
    intro db coll save L db2 h
    simp only [storeChangeLogsGo] at h
    split at h
    · exact ih db _ save L db2 h
    · split at h
      · exact Except.noConfusion h
      · rename_i tr heq
        have hr := getRevisionId_frame heq
        have hp := getPeopleId_frame tr.2 raw.author
        have hrec := ih _ _ _ L db2 h
        refine ⟨hrec.1, hrec.2.1, ?_, ?_⟩
        · calc db2.res.issues = (getPeopleId tr.2 raw.author).2.issues := hrec.2.2.1
            _ = tr.2.issues := hp.1
            _ = db.res.issues := hr.2.1
        · calc db2.res.revisions = (getPeopleId tr.2 raw.author).2.revisions := hrec.2.2.2
            _ = tr.2.revisions := hp.2
            _ = db.res.revisions := hr.2.2

/-- People preservation: the change-log loop creates no person record when
every referenced author already resolves by (email, name). -/
theorem storeChangeLogsGo_people (cid : Nat) :
    ∀ (raws : List RawChangeLog) (db : GDB) (coll : List ChangeLog)
      (save : List ChangeLogData) (L : List ChangeLog) (db2 : GDB),
      storeChangeLogsGo cid db coll save raws = Except.ok (L, db2) →
      (∀ l ∈ raws, ∀ rp, l.author = some rp →
        (findByEmailName db.res.people rp).isSome) →
      db2.res.people = db.res.people := by
  intro raws
  induction raws with
  | nil =>
    intro db coll save L db2 h hres
    simp only [storeChangeLogsGo, Except.ok.injEq, Prod.mk.injEq] at h
    obtain ⟨hL, hdb⟩ := h
    subst hdb
    rfl
  | cons raw rest ih =>
    intro db coll save L db2 h hres
    simp only [storeChangeLogsGo] at h
    split at h
    · exact ih db _ save L db2 h
        (fun l hl => hres l (List.mem_cons_of_mem raw hl))
    · split at h
      · exact Except.noConfusion h
      · rename_i tr heq
        have hr := getRevisionId_frame heq
        have hstep : (getPeopleId tr.2 raw.author).2.people = db.res.people := by
          rw [getPeopleId_people tr.2 raw.author
            (by intro rp hrp
                rw [hr.1]
                exact hres raw (List.mem_cons_self raw rest) rp hrp)]
          exact hr.1
        have hrec := ih _ _ _ L db2 h
          (by intro l hl rp hrp
              show ((findByEmailName (getPeopleId tr.2 raw.author).2.people rp)).isSome
              rw [hstep]
              exact hres l (List.mem_cons_of_mem raw hl) rp hrp)
        calc db2.res.people = (getPeopleId tr.2 raw.author).2.people := hrec
          _ = db.res.people := hstep

/-- Post-state of the change-log loop: the store is the old store plus a
batch-inserted tail holding every queued payload, and every processed raw
entry external id is present in the store. -/
theorem storeChangeLogsGo_spec (cid : Nat) :
    ∀ (raws : List RawChangeLog) (db : GDB) (coll : List ChangeLog)
      (save : List ChangeLogData) (L : List ChangeLog) (db2 : GDB),
      storeChangeLogsGo cid db coll save raws = Except.ok (L, db2) →
      (∃ tail : List ChangeLog, db2.changeLogs = db.changeLogs ++ tail ∧
        ∀ d ∈ save, ∃ c ∈ tail, c.data.external_id = d.external_id) ∧
      ∀ l ∈ raws, ∃ c ∈ db2.changeLogs, c.data.external_id = l.id := by
  intro raws
  induction raws with
  | nil =>
    intro db coll save L db2 h
    simp only [storeChangeLogsGo, Except.ok.injEq, Prod.mk.injEq] at h
    obtain ⟨hL, hdb⟩ := h
    subst hdb
    refine ⟨⟨assignLogIds db.changeLogs.length save, rfl, ?_⟩, by intro l hl; cases hl⟩
    intro d hd
    obtain ⟨c, hc, hcd⟩ := assignLogIds_data save db.changeLogs.length d hd
    exact ⟨c, hc, by rw [hcd]⟩
  | cons raw rest ih =>
    intro db coll save L db2 h
    simp only [storeChangeLogsGo] at h
    split at h
    · rename_i cl hf
      obtain ⟨⟨tail, htail, hsave⟩, hraws⟩ := ih db _ save L db2 h
      refine ⟨⟨tail, htail, hsave⟩, ?_⟩
      intro l hl
      rcases List.mem_cons.mp hl with hh | hh
      · refine ⟨cl, ?_, ?_⟩
        · rw [htail]
          exact List.mem_append_left tail (List.mem_of_find?_eq_some hf)
        · have := List.find?_some hf
          rw [hh]
          exact beq_iff_eq.mp this
      · exact hraws l hh
    · split at h
      · exact Except.noConfusion h
      · rename_i tr heq
        obtain ⟨⟨tail, htail, hsave⟩, hraws⟩ := ih _ _ _ L db2 h
        have htail2 : db2.changeLogs = db.changeLogs ++ tail := htail
        refine ⟨⟨tail, htail2, fun d hd => hsave d (List.mem_append_left _ hd)⟩, ?_⟩
        intro l hl
        rcases List.mem_cons.mp hl with hh | hh
        · obtain ⟨c, hc, hcd⟩ := hsave _ (List.mem_append_right save (List.mem_singleton_self _))
          refine ⟨c, by rw [htail2]; exact List.mem_append_right _ hc, by rw [hcd, hh]⟩
        · exact hraws l hh

/-- No-op property: when every raw change-log entry external id is already
stored, the change-log loop with an empty queue is a database no-op. -/
theorem storeChangeLogsGo_allFound (cid : Nat) :
    ∀ (raws : List RawChangeLog) (db : GDB) (coll : List ChangeLog),
      (∀ l ∈ raws, ∃ c ∈ db.changeLogs, c.data.external_id = l.id) →
      ∃ L, storeChangeLogsGo cid db coll [] raws = Except.ok (L, db) := by
  intro raws
  induction raws with
  | nil =>
    intro db coll hall
    refine ⟨coll ++ [], ?_⟩
    simp only [storeChangeLogsGo, assignLogIds, List.append_nil]
  | cons raw rest ih =>
    intro db coll hall
    obtain ⟨c, hc, hcd⟩ := hall raw (List.mem_cons_self raw rest)
    have hkey : ((fun cl => cl.data.external_id == raw.id) c) = true := by
      simp [hcd]
    obtain ⟨b, hb⟩ :=
      find?_isSome_of_mem (p := fun cl => cl.data.external_id == raw.id) hc hkey
    obtain ⟨L, hL⟩ := ih db (coll ++ [b])
      (fun l hl => hall l (List.mem_cons_of_mem raw hl))
    refine ⟨L, ?_⟩
    simp only [storeChangeLogsGo, hb]
    exact hL

/-- C1 amended: the review and change-log reconcilers always look up by
natural key (external id) first and never create a second record for an
existing key; on a hit, `store_review` overwrites the existing record
fields wholesale from the latest raw payload, while `store_change_logs`
leaves the existing record untouched and only batch-inserts unseen
entries; consequently, re-running the pass over an unchanged payload (in
a fresh run, class-level caches reset) yields zero additional review,
change-log, comment or person records and identical field values.
Stated here for a pass whose referenced actors resolve by (email, name)
against the existing people store. -/
theorem c1_theorem (ctx : GerritCtx) (db0 : GDB) (raw : RawReview)
    (rawLogs : List RawChangeLog) (logs1 : List ChangeLog) (db2 : GDB)
    (hpc : db0.res.peopleCache = []) (hic : db0.res.issueCache = [])
    (hrc : db0.res.revisionCache = [])
    (hres : ∀ rp ∈ reviewRawPeople raw rawLogs, (findByEmailName db0.res.people rp).isSome)
    (hrun1 : storeChangeLogs (storeReview ctx db0 raw).2 (storeReview ctx db0 raw).1.id rawLogs
      = Except.ok (logs1, db2)) :
    (storeReview ctx (freshCaches db2) raw).1 = (storeReview ctx db0 raw).1 ∧
    ∃ logs2,
      storeChangeLogs (storeReview ctx (freshCaches db2) raw).2
        (storeReview ctx (freshCaches db2) raw).1.id rawLogs
        = Except.ok (logs2, (storeReview ctx (freshCaches db2) raw).2) ∧
      (storeReview ctx (freshCaches db2) raw).2.reviews = db2.reviews ∧
      (storeReview ctx (freshCaches db2) raw).2.changeLogs = db2.changeLogs ∧
      (storeReview ctx (freshCaches db2) raw).2.comments = db2.comments ∧
      (storeReview ctx (freshCaches db2) raw).2.res.people = db2.res.people := by
  have hown : (findByEmailName db0.res.people raw.owner).isSome :=
    hres raw.owner (List.mem_cons_self _ _)
  have hsub : ∀ rp, raw.submitter = some rp → (findByEmailName db0.res.people rp).isSome := by
    intro rp hrp
    refine hres rp (List.mem_cons_of_mem _ (List.mem_append_left _ ?_))
    simp [hrp]
  have hRDf := reviewDataOf_frame ctx db0.res raw hown hsub
  have hSRf := storeReview_frame ctx db0 raw
  have hlogres : ∀ l ∈ rawLogs, ∀ rp, l.author = some rp →
      (findByEmailName (storeReview ctx db0 raw).2.res.people rp).isSome := by
    intro l hl rp hrp
    rw [hSRf.2.2, hRDf.1]
    exact hres rp (List.mem_cons_of_mem _ (List.mem_append_right _
      (List.mem_filterMap.mpr ⟨l, hl, hrp⟩)))
  have hGf := storeChangeLogsGo_frame ((storeReview ctx db0 raw).1.id) rawLogs
    (storeReview ctx db0 raw).2 [] [] logs1 db2 hrun1
  have hGp := storeChangeLogsGo_people ((storeReview ctx db0 raw).1.id) rawLogs
    (storeReview ctx db0 raw).2 [] [] logs1 db2 hrun1 hlogres
  have hSpec := storeChangeLogsGo_spec ((storeReview ctx db0 raw).1.id) rawLogs
    (storeReview ctx db0 raw).2 [] [] logs1 db2 hrun1
  have h2rev : db2.reviews = (storeReview ctx db0 raw).2.reviews := hGf.1
  have h2cl : ∀ l ∈ rawLogs, ∃ c ∈ db2.changeLogs, c.data.external_id = l.id := hSpec.2
  have h2people : db2.res.people = db0.res.people := by
    rw [hGp, hSRf.2.2, hRDf.1]
  have h2issues : db2.res.issues = db0.res.issues := by
    rw [hGf.2.2.1, hSRf.2.2, hRDf.2.1]
  have h2revisions : db2.res.revisions = db0.res.revisions := by
    rw [hGf.2.2.2, hSRf.2.2, hRDf.2.2]
  have hresEq : (freshCaches db2).res = db0.res := by
    show ({ people := db2.res.people, issues := db2.res.issues,
            revisions := db2.res.revisions, peopleCache := [], issueCache := [],
            revisionCache := [] } : ResState) = db0.res
    rw [h2people, h2issues, h2revisions, ← hpc, ← hic, ← hrc]
  have hfind2 : (freshCaches db2).reviews.find? (fun q => q.data.external_id == raw.id) =
      some (storeReview ctx db0 raw).1 := by
    show db2.reviews.find? _ = _
    rw [h2rev]
    exact storeReview_find_self ctx db0 raw
  have hSR2 := storeReview_eq_found ctx (freshCaches db2) raw (storeReview ctx db0 raw).1 hfind2
  have ht2 : reviewDataOf ctx (freshCaches db2).res raw = reviewDataOf ctx db0.res raw := by
    rw [hresEq]
  have hrecNew : Review.mk (storeReview ctx db0 raw).1.id
      (reviewDataOf ctx (freshCaches db2).res raw).1 = (storeReview ctx db0 raw).1 := by
    rw [ht2, ← storeReview_data ctx db0 raw]
  have hrev2eq : (storeReview ctx (freshCaches db2) raw).1 = (storeReview ctx db0 raw).1 := by
    rw [hSR2]
    exact hrecNew
  have hdb3rev : (storeReview ctx (freshCaches db2) raw).2.reviews = db2.reviews := by
    rw [hSR2]
    show replaceFirst (fun q => q.data.external_id == raw.id)
      (Review.mk (storeReview ctx db0 raw).1.id
        (reviewDataOf ctx (freshCaches db2).res raw).1) db2.reviews = db2.reviews
    rw [hrecNew, h2rev]
    exact replaceFirst_of_find?_self (storeReview_find_self ctx db0 raw)
  have hdb3cl : (storeReview ctx (freshCaches db2) raw).2.changeLogs = db2.changeLogs := by
    rw [hSR2]
    rfl
  have hdb3cm : (storeReview ctx (freshCaches db2) raw).2.comments = db2.comments := by
    rw [hSR2]
    rfl
  have hdb3people : (storeReview ctx (freshCaches db2) raw).2.res.people = db2.res.people := by
    have h := (storeReview_frame ctx (freshCaches db2) raw).2.2
    rw [h, ht2, hRDf.1, ← h2people]
  obtain ⟨logs2, hlogs2⟩ := storeChangeLogsGo_allFound
    ((storeReview ctx (freshCaches db2) raw).1.id) rawLogs
    (storeReview ctx (freshCaches db2) raw).2 []
    (by intro l hl
        rw [hdb3cl]
        exact h2cl l hl)
  exact ⟨hrev2eq, logs2, hlogs2, hdb3rev, hdb3cl, hdb3cm, hdb3people⟩

/-- C1 counterexample: on a natural-key hit `store_change_logs` does NOT
mutate the existing record fields to the latest raw payload - re-syncing
change log "e" whose raw message is now "new" leaves the stored message
"old" (the field assignments at gerrit.py:223-233 sit inside the
`DoesNotExist` branch only). -/
theorem c1_counterexample :
    (storeChangeLogs c1CDB 7 [c1RawLog]).map
      (fun r => r.2.changeLogs.map (fun c => c.data.message)) = Except.ok ["old"] ∧
    c1RawLog.message = "new" := by decide

/-- Witness for the amended C1 at a concrete payload over a concrete
store. -/
theorem c1_theorem_witness :
    (storeReview c1WCtx (freshCaches (storeReview c1WCtx c1WDB c1WRaw).2) c1WRaw).1 =
      (storeReview c1WCtx c1WDB c1WRaw).1 ∧
    ∃ logs2,
      storeChangeLogs (storeReview c1WCtx (freshCaches (storeReview c1WCtx c1WDB c1WRaw).2) c1WRaw).2
        (storeReview c1WCtx (freshCaches (storeReview c1WCtx c1WDB c1WRaw).2) c1WRaw).1.id []
        = Except.ok (logs2,
            (storeReview c1WCtx (freshCaches (storeReview c1WCtx c1WDB c1WRaw).2) c1WRaw).2) ∧
      (storeReview c1WCtx (freshCaches (storeReview c1WCtx c1WDB c1WRaw).2) c1WRaw).2.reviews =
        (storeReview c1WCtx c1WDB c1WRaw).2.reviews ∧
      (storeReview c1WCtx (freshCaches (storeReview c1WCtx c1WDB c1WRaw).2) c1WRaw).2.changeLogs =
        (storeReview c1WCtx c1WDB c1WRaw).2.changeLogs ∧
      (storeReview c1WCtx (freshCaches (storeReview c1WCtx c1WDB c1WRaw).2) c1WRaw).2.comments =
        (storeReview c1WCtx c1WDB c1WRaw).2.comments ∧
      (storeReview c1WCtx (freshCaches (storeReview c1WCtx c1WDB c1WRaw).2) c1WRaw).2.res.people =
        (storeReview c1WCtx c1WDB c1WRaw).2.res.people :=
  c1_theorem c1WCtx c1WDB c1WRaw [] [] (storeReview c1WCtx c1WDB c1WRaw).2
    rfl rfl rfl (by decide) (by decide)
